import Mathlib

/-!
# Billing notifier: dedup-and-notify protocol

A shallow embedding of `notifier.go` (package `billing_notifier`) and of the
library behaviour it relies on (`fmt`, `time`, `encoding/json`, the Firestore
transaction and the Slack webhook), followed by the theorems about it.

Layout:
* decimal rendering (`%d`, `%f`, `%.0f`, zero padded calendar fields);
* `float64` values, rounding to nearest and multiplication;
* `time.Time` with the calendar fields used by `Format`;
* the messages, `GenerateToken` and `GenerateMessage`;
* the counter store and `CheckDuplicate`;
* JSON decoding of the payload and `BillingNotifier`.
-/

namespace Notifier

/-! ## Decimal rendering -/

/-- The ASCII digit of a number below ten. -/
def digitChar : Nat → Char
  | 0 => '0' | 1 => '1' | 2 => '2' | 3 => '3' | 4 => '4'
  | 5 => '5' | 6 => '6' | 7 => '7' | 8 => '8' | _ => '9'

/-- Decimal digits of `n`, most significant first; `fuel` bounds the number of digits. -/
def natDigits : Nat → Nat → List Char
  | 0, _ => []
  | fuel + 1, n =>
    if n < 10 then [digitChar n] else natDigits fuel (n / 10) ++ [digitChar (n % 10)]

/-- Decimal digits of a natural number (`n + 1` is always enough fuel). -/
def decimal (n : Nat) : List Char := natDigits (n + 1) n

/-- Unsigned decimal rendering. -/
def fmtNat (n : Nat) : String := String.mk (decimal n)

/-- Decimal digits padded on the left with zeros up to `width` characters. -/
def padDigits (width n : Nat) : String :=
  String.mk (List.replicate (width - (decimal n).length) '0' ++ decimal n)

/-- The sign that `fmt` and `time` print in front of a magnitude. -/
def signStr (neg : Bool) : String := if neg then "-" else ""

/-- Rendering of an integer by the verb `%d`. -/
def fmtInt (x : Int) : String := signStr (decide (x < 0)) ++ fmtNat x.natAbs

/-- The helper `appendInt` of package `time`: sign, then the magnitude zero padded to `width`. -/
def appendInt (x : Int) (width : Nat) : String :=
  signStr (decide (x < 0)) ++ padDigits width x.natAbs

/-! ## float64 -/

/-- A `float64` value: a finite value `(-1)^neg * m * 2^e`, an infinity or a NaN. -/
inductive Float64 where
  | finite (neg : Bool) (m : Nat) (e : Int)
  | inf (neg : Bool)
  | nan
  deriving DecidableEq

namespace Float64

/-- The finite values as IEEE 754 binary64 stores them: a 53 bit significand that is
normalised unless the exponent is the smallest one. -/
def Canonical : Float64 → Bool
  | finite _ m e =>
    decide (m < 2 ^ 53) && decide (-1074 ≤ e) && decide (e ≤ 971) &&
      (decide (2 ^ 52 ≤ m) || decide (e = -1074))
  | _ => true

/-- Whether the value is neither an infinity nor a NaN. -/
def isFinite : Float64 → Bool
  | finite _ _ _ => true
  | _ => false

/-- The sign bit of a finite value or of an infinity. -/
def signBit : Float64 → Bool
  | finite neg _ _ => neg
  | inf neg => neg
  | nan => false

/-- The magnitude of a finite value as a rational number (zero otherwise). -/
def absVal : Float64 → ℚ
  | finite _ m e => (m : ℚ) * (2 : ℚ) ^ e
  | _ => 0

/-- Number of binary digits of `n`; `fuel` bounds it. -/
def bitLenAux : Nat → Nat → Nat
  | 0, _ => 0
  | fuel + 1, n => if n = 0 then 0 else bitLenAux fuel (n / 2) + 1

/-- Number of binary digits of `n`. -/
def bitLen (n : Nat) : Nat := bitLenAux n n

/-- The quotient `num / den` rounded to the nearest natural number, ties to even. -/
def roundHalfEven (num den : Nat) : Nat :=
  let q := num / den
  let r := num % den
  if den < 2 * r ∨ (2 * r = den ∧ q % 2 = 1) then q + 1 else q

/-- The `float64` nearest to `p / q` (ties to even, overflow to infinity), with sign `neg`. -/
def roundRat (neg : Bool) (p q : Nat) : Float64 :=
  if p = 0 then finite neg 0 (-1074) else
  let k : Int := (bitLen p : Int) - (bitLen q : Int)
  let ge : Bool := if 0 ≤ k then decide (q * 2 ^ k.toNat ≤ p) else decide (q ≤ p * 2 ^ (-k).toNat)
  let lg : Int := if ge then k else k - 1
  let E : Int := max (lg - 52) (-1074)
  let num : Nat := if E < 0 then p * 2 ^ (-E).toNat else p
  let den : Nat := if E < 0 then q else q * 2 ^ E.toNat
  let m := roundHalfEven num den
  if m = 2 ^ 53 then (if 971 < E + 1 then inf neg else finite neg (2 ^ 52) (E + 1))
  else if 971 < E then inf neg else finite neg m E

/-- Conversion of a decimal literal `digits * 10^exp10` (a Go constant, or the text of a JSON
number as `strconv.ParseFloat` reads it). -/
def ofDecimal (neg : Bool) (digits : Nat) (exp10 : Int) : Float64 :=
  if 0 ≤ exp10 then roundRat neg (digits * 10 ^ exp10.toNat) 1
  else roundRat neg digits (10 ^ (-exp10).toNat)

/-- Conversion of an untyped integer constant. -/
def ofNat (n : Nat) : Float64 := roundRat false n 1

/-- The product of two `float64` values, the Go operator `*`. -/
def mul : Float64 → Float64 → Float64
  | nan, _ => nan
  | _, nan => nan
  | inf s, inf t => inf (xor s t)
  | inf s, finite t m _ => if m = 0 then nan else inf (xor s t)
  | finite s m _, inf t => if m = 0 then nan else inf (xor s t)
  | finite s m e, finite t n f =>
    if 0 ≤ e + f then roundRat (xor s t) (m * n * 2 ^ (e + f).toNat) 1
    else roundRat (xor s t) (m * n) (2 ^ (-(e + f)).toNat)

/-- The magnitude `m * 2^e` scaled by `10^prec` and rounded to a natural number, ties to even. -/
def scaledRound (m : Nat) (e : Int) (prec : Nat) : Nat :=
  if e < 0 then roundHalfEven (m * 10 ^ prec) (2 ^ (-e).toNat)
  else m * 2 ^ e.toNat * 10 ^ prec

end Float64

/-- Rendering of a `float64` by the verb `%.<prec>f` (`%f` is `prec = 6`). -/
def fmtFloat (prec : Nat) : Float64 → String
  | Float64.nan => "NaN"
  | Float64.inf neg => if neg then "-Inf" else "+Inf"
  | Float64.finite neg m e =>
    let n := Float64.scaledRound m e prec
    signStr neg ++ fmtNat (n / 10 ^ prec) ++
      (if prec = 0 then "" else "." ++ padDigits prec (n % 10 ^ prec))

/-! ## time.Time -/

/-- A `time.Time`: an instant (seconds and nanoseconds since the Unix epoch) together with the
offset east of UTC, in seconds, of its location at that instant. -/
structure Time where
  sec : Int
  nsec : Nat
  offset : Int
  deriving DecidableEq

namespace Time

/-- The zero value of `time.Time`: January 1, year 1, 00:00:00 UTC. -/
def zero : Time := { sec := -62135596800, nsec := 0, offset := 0 }

/-- The method `Unix`: seconds elapsed since January 1, 1970 UTC. -/
def Unix (t : Time) : Int := t.sec

/-- Year, month and day of the proleptic Gregorian calendar for a day count since 1970-01-01. -/
def civilFromDays (days : Int) : Int × Int × Int :=
  let z := days + 719468
  let era := z / 146097
  let doe := z - era * 146097
  let yoe := (doe - doe / 1460 + doe / 36524 - doe / 146096) / 365
  let doy := doe - (365 * yoe + yoe / 4 - yoe / 100)
  let mp := (5 * doy + 2) / 153
  let d := doy - (153 * mp + 2) / 5 + 1
  let m := if mp < 10 then mp + 3 else mp - 9
  (yoe + era * 400 + (if m ≤ 2 then 1 else 0), m, d)

/-- The calendar day, counted from 1970-01-01, in the location of the time. -/
def localDays (t : Time) : Int := (t.sec + t.offset) / 86400

/-- The method `Year`. -/
def Year (t : Time) : Int := (civilFromDays t.localDays).1

/-- The method `Month`, as a number from 1 to 12. -/
def Month (t : Time) : Int := (civilFromDays t.localDays).2.1

/-- The method `Format` applied to the layout `"2006年01月"`: the year padded to four digits
and the month padded to two, each followed by its literal character. -/
def Format (t : Time) : String :=
  appendInt t.Year 4 ++ "年" ++ appendInt t.Month 2 ++ "月"

/-- Days since 1970-01-01 of a date of the proleptic Gregorian calendar. -/
def daysFromCivil (y m d : Int) : Int :=
  let y1 := if m ≤ 2 then y - 1 else y
  let era := y1 / 400
  let yoe := y1 - era * 400
  let mp := if 2 < m then m - 3 else m + 9
  let doy := (153 * mp + 2) / 5 + d - 1
  let doe := yoe * 365 + yoe / 4 - yoe / 100 + doy
  era * 146097 + doe - 719468

/-- Whether a year is a leap year. -/
def isLeap (y : Nat) : Bool := y % 4 = 0 ∧ (y % 100 ≠ 0 ∨ y % 400 = 0)

/-- Number of days of a month. -/
def daysIn (y m : Nat) : Nat :=
  if m = 2 then (if isLeap y then 29 else 28)
  else if m = 4 ∨ m = 6 ∨ m = 9 ∨ m = 11 then 30 else 31

/-- The value of an ASCII digit. -/
def digitVal (c : Char) : Option Nat :=
  if 48 ≤ c.toNat ∧ c.toNat ≤ 57 then some (c.toNat - 48) else none

/-- Reads exactly `n` digits, continuing the number `acc`. -/
def takeDigits : Nat → List Char → Nat → Option (Nat × List Char)
  | 0, cs, acc => some (acc, cs)
  | _ + 1, [], _ => none
  | n + 1, c :: cs, acc =>
    match digitVal c with
    | some d => takeDigits n cs (acc * 10 + d)
    | none => none

/-- Reads the character `c`. -/
def expect (c : Char) : List Char → Option (List Char)
  | [] => none
  | d :: cs => if d = c then some cs else none

/-- The helper `getnum` of package `time`: a number of one or two digits, of two digits when
`fixed` is set. -/
def getnum (fixed : Bool) : List Char → Option (Nat × List Char)
  | [] => none
  | c0 :: rest =>
    match digitVal c0 with
    | none => none
    | some d0 =>
      match rest with
      | [] => if fixed then none else some (d0, [])
      | c1 :: rest1 =>
        match digitVal c1 with
        | some d1 => some (d0 * 10 + d1, rest1)
        | none => if fixed then none else some (d0, c1 :: rest1)

/-- Reads the fraction of a second that may follow the seconds, in nanoseconds: a point or a
comma and the digits after it, of which the first nine count. Nothing is read when no digit
follows the separator. -/
def takeFraction : List Char → Nat × List Char
  | sep :: c :: rest =>
    if (sep = '.' ∨ sep = ',') ∧ (digitVal c).isSome then
      let ds := (c :: rest).takeWhile (fun x => (digitVal x).isSome)
      let nine := (ds ++ List.replicate 9 '0').take 9
      (nine.foldl (fun acc x => acc * 10 + (digitVal x).getD 0) 0, (c :: rest).drop ds.length)
    else (0, sep :: c :: rest)
  | cs => (0, cs)

/-- Reads the zone of the layout element `Z07:00`: `Z`, or a sign followed by `hh:mm` with an
hour up to 24 and a minute up to 60; nothing may follow. The result is the offset east of UTC
in seconds. -/
def takeZone : List Char → Option Int
  | 'Z' :: rest => if rest = [] then some 0 else none
  | sign :: h1 :: h2 :: colon :: m1 :: m2 :: rest =>
    match getnum true [h1, h2], getnum true [m1, m2] with
    | some (hh, _), some (mm, _) =>
      if colon = ':' ∧ rest = [] ∧ hh ≤ 24 ∧ mm ≤ 60 ∧ (sign = '+' ∨ sign = '-') then
        some ((if sign = '-' then -1 else 1) * ((hh : Int) * 3600 + (mm : Int) * 60))
      else none
    | _, _ => none
  | _ => none

/-- The function `time.Parse` applied to the layout `RFC3339` (`2006-01-02T15:04:05Z07:00`),
which is how `Time.UnmarshalJSON` reads the text between the quotes of a JSON string: a year
of four digits, a month, a day, minutes and seconds of two digits, an hour of one or two
digits, an optional fraction of a second and a zone; the month, the day of the month, the hour,
the minute and the second must be in range. -/
def parseRFC3339 (s : String) : Option Time :=
  match takeDigits 4 s.data 0 with
  | none => none
  | some (y, c1) =>
  match (expect '-' c1).bind (getnum true) with
  | none => none
  | some (mo, c2) =>
  match (expect '-' c2).bind (getnum true) with
  | none => none
  | some (d, c3) =>
  match (expect 'T' c3).bind (getnum false) with
  | none => none
  | some (hh, c4) =>
  match (expect ':' c4).bind (getnum true) with
  | none => none
  | some (mi, c5) =>
  match (expect ':' c5).bind (getnum true) with
  | none => none
  | some (ss, c6) =>
  match takeZone (takeFraction c6).2 with
  | none => none
  | some off =>
    if 1 ≤ mo ∧ mo ≤ 12 ∧ 1 ≤ d ∧ d ≤ daysIn y mo ∧ hh ≤ 23 ∧ mi ≤ 59 ∧ ss ≤ 59 then
      some { sec := daysFromCivil y mo d * 86400 + (hh : Int) * 3600 + (mi : Int) * 60 + ss - off,
             nsec := (takeFraction c6).1, offset := off }
    else none

end Time

/-! ## JSON text -/

/-- A JSON value. A number keeps its sign and its decimal value `digits * 10^exp10`. A string
keeps both the characters written between its quotes (`raw`) and the string they denote once
the escape sequences are replaced (`text`): `json.Unmarshal` stores `text` in a `string` field
and hands the written form to `Time.UnmarshalJSON`, which does not replace escape sequences. -/
inductive Json where
  | null
  | bool (b : Bool)
  | num (neg : Bool) (digits : Nat) (exp10 : Int)
  | str (raw : String) (text : String)
  | arr (elems : List Json)
  | obj (members : List (String × Json))

/-- The bytes of a payload, as the JSON scanner sees them: not JSON text, or the text of one
JSON value. -/
inductive Payload where
  | invalid
  | valid (j : Json)

/-! ## Messages -/

/-- The decoded budget alert. -/
structure BillingMessage where
  BudgetDisplayName : String
  AlertThresholdExceeded : Float64
  CostAmount : Float64
  CostIntervalStart : Time
  BudgetAmount : Float64
  BudgetAmountType : String
  CurrencyCode : String
  deriving DecidableEq

/-- The attributes of a Pub/Sub message. -/
structure Attributes where
  BillingAccountId : String
  BudgetId : String
  SchemaVersion : String

/-- A Pub/Sub message: the payload and its attributes. -/
structure PubSubMessage where
  Data : Payload
  Attributes : Attributes

/-- The token of an alert: `fmt.Sprintf("%s:%d:%f", budgetId, intervalStart.Unix(), threshold)`. -/
def GenerateToken (m : PubSubMessage) (b : BillingMessage) : String :=
  m.Attributes.BudgetId ++ ":" ++ fmtInt b.CostIntervalStart.Unix ++ ":" ++
    fmtFloat 6 b.AlertThresholdExceeded

/-- The text of the notification:
`fmt.Sprintf("[%s] %s 予算(%.0f円)の%.0f%%に達しました。現在の利用額: %.0f円", ...)`. -/
def GenerateMessage (b : BillingMessage) : String :=
  "[" ++ b.BudgetDisplayName ++ "] " ++ b.CostIntervalStart.Format ++
    " 予算(" ++ fmtFloat 0 b.BudgetAmount ++
    "円)の" ++ fmtFloat 0 (b.AlertThresholdExceeded.mul (Float64.ofNat 100)) ++
    "%に達しました。現在の利用額: " ++ fmtFloat 0 b.CostAmount ++ "円"

/-! ## Errors -/

/-- A Go `error` value other than `nil`: the package sentinel, an error created by
`xerrors.New` or by a library, or `xerrors.Errorf("<msg>: %w", cause)`. -/
inductive GoError where
  | sentinel
  | other (msg : String)
  | wrap (msg : String) (cause : GoError)
  deriving DecidableEq

/-- The package variable `AlreadyUsedErr = xerrors.New("Already used token")`. -/
def AlreadyUsedErr : GoError := GoError.sentinel

/-! ## The counter store -/

/-- A 64 bit signed integer: the value of `i` after wrap-around. -/
def wrapInt64 (i : Int) : Int := (i + 2 ^ 63) % 2 ^ 64 - 2 ^ 63

/-- A field value of a Firestore document, as `DataAt` returns it: `nil`, `bool`, `int64`,
`float64`, `string`, or a value of another kind (bytes, a timestamp, a reference, a geographic
point, an array or a map), of which only a description is kept. -/
inductive Value where
  | null
  | bool (b : Bool)
  | int (i : Int)
  | double (f : Float64)
  | str (s : String)
  | other (description : String)
  deriving DecidableEq

/-- A document: its fields by name. -/
abbrev Document := List (String × Value)

/-- The value of a field, when the document has it. -/
def Document.field? (d : Document) (name : String) : Option Value :=
  match d with
  | [] => none
  | (k, v) :: rest => if k = name then some v else Document.field? rest name

/-- The document with one field written, the other fields kept. -/
def Document.setField (d : Document) (name : String) (v : Value) : Document :=
  match d with
  | [] => [(name, v)]
  | (k, w) :: rest => if k = name then (k, v) :: rest else (k, w) :: Document.setField rest name v

/-- The document with every field of `fields` written (`firestore.MergeAll`). -/
def Document.merge (d : Document) (fields : List (String × Value)) : Document :=
  fields.foldl (fun acc kv => Document.setField acc kv.1 kv.2) d

/-- The store: for every collection and document id, the document when it exists. -/
abbrev Store := String → String → Option Document

/-- The store with no document at all. -/
def Store.empty : Store := fun _ _ => none

/-- The store with one document. -/
def Store.single (collection id : String) (doc : Document) : Store :=
  fun c i => if c = collection ∧ i = id then some doc else none

/-- The commit of `Set(docRef, fields, firestore.MergeAll)`: the document is created when it is
absent, and only the given fields change when it exists. -/
def Store.setMerge (s : Store) (collection id : String) (fields : List (String × Value)) : Store :=
  fun c i =>
    if c = collection ∧ i = id then some (Document.merge ((s collection id).getD []) fields)
    else s c i

/-- What can go wrong in one transaction besides the content of the store: the read may fail
for a reason other than the absence of the document, and the write or the commit may fail. -/
structure Faults where
  readFails : Bool
  commitFails : Bool
  deriving DecidableEq

/-- No failure: reads return the stored document or report its absence, writes commit. -/
def Faults.none : Faults := { readFails := false, commitFails := false }

/-- An access to the store made by a transaction. -/
inductive StoreOp where
  | get (collection id : String)
  | set (collection id : String) (fields : List (String × Value))
  deriving DecidableEq

/-- The call `tx.Get(docRef)`: an error when the read fails or the document does not exist. -/
def txGet (fx : Faults) (s : Store) (collection id : String) : Except GoError Document :=
  if fx.readFails then Except.error (GoError.other "rpc error: code = Unavailable")
  else match s collection id with
    | none => Except.error (GoError.other "rpc error: code = NotFound")
    | some doc => Except.ok doc

/-- The call `doc.DataAt("used")`: an error when the document has no such field. -/
def DataAt (doc : Document) (name : String) : Except GoError Value :=
  match doc.field? name with
  | none => Except.error (GoError.other "firestore: no field")
  | some v => Except.ok v

/-- The function that `CheckDuplicate` runs in the transaction, up to the call of `tx.Set`:
the new value of `newUsed`, or the error the function returns. -/
def claimBody (fx : Faults) (s : Store) (collection token : String) : Except GoError Int :=
  let used : Except GoError Value :=
    match txGet fx s collection token with
    | Except.error _ => Except.ok (Value.int 0)
    | Except.ok doc => DataAt doc "used"
  match used with
  | Except.error err => Except.error err
  | Except.ok (Value.int u) => Except.ok (wrapInt64 (u + 1))
  | Except.ok _ => Except.error (GoError.other "Invalid Field")

/-- The result of `CheckDuplicate`: the returned error (`none` is `nil`), the store after the
call and the accesses made to the store. -/
structure CheckResult where
  err : Option GoError
  store : Store
  ops : List StoreOp

/-- The function `CheckDuplicate(client, ctx, collection, token)`; `now` is `time.Now().Unix()`. -/
def CheckDuplicate (fx : Faults) (now : Int) (s : Store) (collection token : String) :
    CheckResult :=
  match claimBody fx s collection token with
  | Except.error err => { err := some err, store := s, ops := [StoreOp.get collection token] }
  | Except.ok newUsed =>
    let fields := [("used", Value.int newUsed), ("updated_at", Value.int now)]
    let ops := [StoreOp.get collection token, StoreOp.set collection token fields]
    if fx.commitFails then
      { err := some (GoError.other "rpc error: code = Aborted"), store := s, ops := ops }
    else if newUsed ≠ 1 then
      { err := some AlreadyUsedErr, store := s.setMerge collection token fields, ops := ops }
    else
      { err := none, store := s.setMerge collection token fields, ops := ops }

/-! ## Decoding the payload -/

/-- The zero value of `BillingMessage`, the value of `message` before `json.Unmarshal`. -/
def BillingMessage.zero : BillingMessage :=
  { BudgetDisplayName := "", AlertThresholdExceeded := Float64.finite false 0 (-1074),
    CostAmount := Float64.finite false 0 (-1074), CostIntervalStart := Time.zero,
    BudgetAmount := Float64.finite false 0 (-1074), BudgetAmountType := "", CurrencyCode := "" }

/-- Case folding of one character of an object key: an ASCII capital, the long s and the Kelvin
sign are folded to the small ASCII letter. -/
def foldRune (c : Char) : Char :=
  if c = Char.ofNat 0x017F then 's'
  else if c = Char.ofNat 0x212A then 'k'
  else if 65 ≤ c.toNat ∧ c.toNat ≤ 90 then Char.ofNat (c.toNat + 32)
  else c

/-- Case folding of an object key. The struct tags of `BillingMessage` are not of the form
`key:"value"`, so every field is matched by its Go name, first exactly and then up to case. -/
def foldName (key : String) : String := String.mk (key.data.map foldRune)

/-- The error of a JSON value that does not fit the Go type of a field. -/
def unmarshalTypeError : GoError := GoError.other "json: cannot unmarshal value into Go struct field"

/-- Decoding into a `string` field: `null` leaves the field as it is. -/
def decodeString (old : String) : Json → Except GoError String
  | Json.str _ text => Except.ok text
  | Json.null => Except.ok old
  | _ => Except.error unmarshalTypeError

/-- Decoding into a `float64` field: a number that overflows `float64` is a type error and
`null` leaves the field as it is. -/
def decodeFloat (old : Float64) : Json → Except GoError Float64
  | Json.num neg digits exp10 =>
    let f := Float64.ofDecimal neg digits exp10
    if f.isFinite then Except.ok f else Except.error unmarshalTypeError
  | Json.null => Except.ok old
  | _ => Except.error unmarshalTypeError

/-- Decoding into a `time.Time` field by `Time.UnmarshalJSON`: a string whose written form
`time.Parse` accepts for the layout `RFC3339`; `null` leaves the field as it is. -/
def decodeTime (old : Time) : Json → Except GoError Time
  | Json.str raw _ =>
    match Time.parseRFC3339 raw with
    | some t => Except.ok t
    | none => Except.error (GoError.other "parsing time: cannot parse")
  | Json.null => Except.ok old
  | _ => Except.error (GoError.other "Time.UnmarshalJSON: input is not a JSON string")

/-- Decoding of one member of the object into the field its key names; a key that names no
field is skipped. -/
def decodeMember (msg : BillingMessage) (key : String) (v : Json) :
    Except GoError BillingMessage :=
  let k := foldName key
  if k = "budgetdisplayname" then
    (decodeString msg.BudgetDisplayName v).map (fun x => { msg with BudgetDisplayName := x })
  else if k = "alertthresholdexceeded" then
    (decodeFloat msg.AlertThresholdExceeded v).map
      (fun x => { msg with AlertThresholdExceeded := x })
  else if k = "costamount" then
    (decodeFloat msg.CostAmount v).map (fun x => { msg with CostAmount := x })
  else if k = "costintervalstart" then
    (decodeTime msg.CostIntervalStart v).map (fun x => { msg with CostIntervalStart := x })
  else if k = "budgetamount" then
    (decodeFloat msg.BudgetAmount v).map (fun x => { msg with BudgetAmount := x })
  else if k = "budgetamounttype" then
    (decodeString msg.BudgetAmountType v).map (fun x => { msg with BudgetAmountType := x })
  else if k = "currencycode" then
    (decodeString msg.CurrencyCode v).map (fun x => { msg with CurrencyCode := x })
  else Except.ok msg

/-- Decoding of the members of an object, in order. A failure fails the whole decoding (which
of several errors `json.Unmarshal` reports is not modelled: the first one is kept). -/
def decodeMembers : List (String × Json) → BillingMessage → Except GoError BillingMessage
  | [], msg => Except.ok msg
  | (key, v) :: rest, msg =>
    match decodeMember msg key v with
    | Except.error err => Except.error err
    | Except.ok msg1 => decodeMembers rest msg1

/-- The call `json.Unmarshal(m.Data, &message)` on a zero `message`: the decoded message, or
the error. -/
def Unmarshal : Payload → Except GoError BillingMessage
  | Payload.invalid => Except.error (GoError.other "invalid character: JSON syntax error")
  | Payload.valid Json.null => Except.ok BillingMessage.zero
  | Payload.valid (Json.obj members) => decodeMembers members BillingMessage.zero
  | Payload.valid _ => Except.error unmarshalTypeError

/-! ## The entry point -/

/-- The surroundings of one invocation: the environment variable `FIRESTORE_COLLECTION`, the
clock, and which of the external calls fail. -/
structure Env where
  FIRESTORE_COLLECTION : String
  now : Int
  clientFails : Bool
  faults : Faults
  postFails : Bool

/-- An environment in which the store and the webhook work. -/
def Env.working (collection : String) (now : Int) : Env :=
  { FIRESTORE_COLLECTION := collection, now := now, clientFails := false,
    faults := Faults.none, postFails := false }

/-- The name of the collection: the environment variable `FIRESTORE_COLLECTION`, or
`billing_notifier` when it is empty. -/
def Env.collection (env : Env) : String :=
  if env.FIRESTORE_COLLECTION = "" then "billing_notifier" else env.FIRESTORE_COLLECTION

/-- The result of `BillingNotifier`: the returned error (`none` is `nil`), the store after the
call, the accesses made to the store, and the texts handed to `slack.PostWebhook`, one for
every delivery attempt. -/
structure Outcome where
  err : Option GoError
  store : Store
  ops : List StoreOp
  posts : List String

/-- The function `BillingNotifier(ctx, m)`. -/
def BillingNotifier (env : Env) (s : Store) (m : PubSubMessage) : Outcome :=
  if env.clientFails then
    { err := some (GoError.wrap "Failed to create firestore client"
        (GoError.other "firestore: cannot create client")),
      store := s, ops := [], posts := [] }
  else
    let collection := env.collection
    match Unmarshal m.Data with
    | Except.error err =>
      { err := some (GoError.wrap "Failed to unmarshal json" err),
        store := s, ops := [], posts := [] }
    | Except.ok message =>
      let token := GenerateToken m message
      let r := CheckDuplicate env.faults env.now s collection token
      match r.err with
      | some err =>
        if err = AlreadyUsedErr then { err := none, store := r.store, ops := r.ops, posts := [] }
        else
          { err := some (GoError.wrap "Failed to check token" err),
            store := r.store, ops := r.ops, posts := [] }
      | none =>
        let text := GenerateMessage message
        if env.postFails then
          { err := some (GoError.wrap "Failed to post slack"
              (GoError.other "slack: webhook request failed")),
            store := r.store, ops := r.ops, posts := [text] }
        else { err := none, store := r.store, ops := r.ops, posts := [text] }

/-! ## Auxiliary notions used in the statements -/

/-- The ten ASCII digits. -/
def digitChars : List Char := ['0', '1', '2', '3', '4', '5', '6', '7', '8', '9']

/-- The number written by a list of digits. -/
def digitsValue (cs : List Char) : Nat :=
  cs.foldl (fun acc c => acc * 10 + (Time.digitVal c).getD 0) 0

/-! ## Values of the test suite -/

/-- The Pub/Sub message of `TestGenerateToken`: no data, budget id `budget_id`. -/
def testPubSubMessage : PubSubMessage :=
  { Data := Payload.invalid,
    Attributes := { BillingAccountId := "billing_id", BudgetId := "budget_id",
                    SchemaVersion := "1.0" } }

/-- The alert of `TestGenerateToken` and `TestGenerateMessage`; `time.Unix(1567576776, 0)` is
taken in a location `offset` seconds east of UTC. -/
def testBillingMessage (offset : Int) : BillingMessage :=
  { BudgetDisplayName := "Hogehoge",
    AlertThresholdExceeded := Float64.ofDecimal false 1 (-1),
    CostAmount := Float64.ofDecimal false 10023 (-2),
    CostIntervalStart := { sec := 1567576776, nsec := 0, offset := offset },
    BudgetAmount := Float64.ofNat 1000,
    BudgetAmountType := "SPECIFIED_AMOUNT",
    CurrencyCode := "JPY" }

/-- The payload of `TestBillingNotifier`. -/
def testPayload : Payload :=
  Payload.valid (Json.obj [
    ("budgetDisplayName", Json.str "example" "example"),
    ("alertThresholdExceeded", Json.num false 2 (-1)),
    ("costAmount", Json.num false 10015 (-2)),
    ("costIntervalStart", Json.str "2019-09-01T07:00:00Z" "2019-09-01T07:00:00Z"),
    ("budgetAmount", Json.num false 10000 (-1)),
    ("budgetAmountType", Json.str "SPECIFIED_AMOUNT" "SPECIFIED_AMOUNT"),
    ("currencyCode", Json.str "JPY" "JPY")])

/-- The Pub/Sub message of `TestBillingNotifier`. -/
def testNotification : PubSubMessage :=
  { Data := testPayload,
    Attributes := { BillingAccountId := "account_id", BudgetId := "budget_id",
                    SchemaVersion := "1.0" } }

/-- A Pub/Sub message whose budget id contains colons. -/
def colonMessage (account : String) : PubSubMessage :=
  { Data := Payload.invalid,
    Attributes := { BillingAccountId := account, BudgetId := "a:1:b", SchemaVersion := "1.0" } }

/-- The alert of the test suite with another threshold fraction. -/
def withThreshold (f : Float64) : BillingMessage :=
  { testBillingMessage 0 with AlertThresholdExceeded := f }

/-- The alert of the test suite with another interval start. -/
def withIntervalStart (t : Time) : BillingMessage :=
  { testBillingMessage 0 with CostIntervalStart := t }

/-- The alert of the test suite with another budget amount. -/
def withBudgetAmount (f : Float64) : BillingMessage :=
  { testBillingMessage 0 with BudgetAmount := f }

/-! ## Sequences of calls -/

/-- One call of `CheckDuplicate` in a sequence: its token, the reading of the clock and what
fails in its transaction. -/
structure Call where
  token : String
  now : Int
  faults : Faults

/-- The errors returned by a sequence of calls of `CheckDuplicate` on one collection, run one
after the other, each on the store the previous one left. -/
def runCalls (collection : String) : Store → List Call → List (Option GoError)
  | _, [] => []
  | s, c :: rest =>
    (CheckDuplicate c.faults c.now s collection c.token).err ::
      runCalls collection (CheckDuplicate c.faults c.now s collection c.token).store rest

/-- The outcomes of a sequence of invocations of `BillingNotifier` with one message, each in
its own environment and on the store the previous one left. -/
def invokeAll : List Env → Store → PubSubMessage → List Outcome
  | [], _, _ => []
  | env :: rest, s, m =>
    BillingNotifier env s m :: invokeAll rest (BillingNotifier env s m).store m

/-- The error `CheckDuplicate` returns to a call that `k` committed calls with the same token
precede: the counter it writes is `k + 1` in 64 bit arithmetic. -/
def verdict (k : Nat) : Option GoError :=
  if wrapInt64 ((k : Int) + 1) ≠ 1 then some AlreadyUsedErr else none

/-- The token of the message of `TestBillingNotifier`. -/
def testToken : String := "budget_id:1567321200:0.200000"

/-- The text of the notification of `TestBillingNotifier`. -/
def testText : String := "[example] 2019年09月 予算(1000円)の20%に達しました。現在の利用額: 100円"

/-- An environment in which the read of the transaction fails (for a reason other than the
absence of the document) and everything else works. -/
def readFailureEnv : Env :=
  { FIRESTORE_COLLECTION := "", now := 0, clientFails := false,
    faults := { readFails := true, commitFails := false }, postFails := false }

/-- An environment in which the store works and the webhook fails. -/
def postFailureEnv (collection : String) (now : Int) : Env :=
  { FIRESTORE_COLLECTION := collection, now := now, clientFails := false,
    faults := Faults.none, postFails := true }

/-- The alert that `json.Unmarshal` decodes from the payload of `TestBillingNotifier`. -/
def testDecoded : BillingMessage :=
  { BudgetDisplayName := "example",
    AlertThresholdExceeded := Float64.ofDecimal false 2 (-1),
    CostAmount := Float64.ofDecimal false 10015 (-2),
    CostIntervalStart := { sec := 1567321200, nsec := 0, offset := 0 },
    BudgetAmount := Float64.ofDecimal false 10000 (-1),
    BudgetAmountType := "SPECIFIED_AMOUNT",
    CurrencyCode := "JPY" }

/-- The folded names of the fields of `BillingMessage`. -/
def fieldNames : List String :=
  ["budgetdisplayname", "alertthresholdexceeded", "costamount", "costintervalstart",
    "budgetamount", "budgetamounttype", "currencycode"]

/-- The payload of `TestBillingNotifier` without the member `costIntervalStart`. -/
def payloadWithoutStart : Payload :=
  Payload.valid (Json.obj [
    ("budgetDisplayName", Json.str "example" "example"),
    ("alertThresholdExceeded", Json.num false 2 (-1)),
    ("costAmount", Json.num false 10015 (-2)),
    ("budgetAmount", Json.num false 10000 (-1)),
    ("budgetAmountType", Json.str "SPECIFIED_AMOUNT" "SPECIFIED_AMOUNT"),
    ("currencyCode", Json.str "JPY" "JPY")])

/-- The Pub/Sub message of `TestBillingNotifier` without the member `costIntervalStart`. -/
def notificationWithoutStart : PubSubMessage :=
  { testNotification with Data := payloadWithoutStart }

/-- The Pub/Sub message of `TestBillingNotifier` with the hour of `costIntervalStart` written
with one digit. -/
def notificationShortHour : PubSubMessage :=
  { testNotification with
      Data := Payload.valid (Json.obj [
        ("budgetDisplayName", Json.str "example" "example"),
        ("alertThresholdExceeded", Json.num false 2 (-1)),
        ("costAmount", Json.num false 10015 (-2)),
        ("costIntervalStart", Json.str "2019-09-01T7:00:00Z" "2019-09-01T7:00:00Z"),
        ("budgetAmount", Json.num false 10000 (-1))]) }

/-- The Pub/Sub message of `TestBillingNotifier` with `costIntervalStart` set to a text that
is not a time. -/
def notificationBadStart : PubSubMessage :=
  { testNotification with
      Data := Payload.valid (Json.obj [
        ("budgetDisplayName", Json.str "example" "example"),
        ("costIntervalStart", Json.str "September 2019" "September 2019")]) }

/-- An environment in which the commit of the transaction fails and everything else works. -/
def commitFailureEnv : Env :=
  { FIRESTORE_COLLECTION := "", now := 9, clientFails := false,
    faults := { readFails := false, commitFails := true }, postFails := false }

/-! # Theorems -/

/-! ## Facts about decimal rendering -/

theorem digitChar_mem (d : Nat) : digitChar d ∈ digitChars := by
  unfold digitChar
  split <;> simp [digitChars]

theorem digitVal_digitChar (d : Nat) (h : d < 10) : Time.digitVal (digitChar d) = some d := by
  interval_cases d <;> rfl

theorem natDigits_mem (fuel n : Nat) : ∀ c ∈ natDigits fuel n, c ∈ digitChars := by
  induction fuel generalizing n with
  | zero => intro c hc; simp [natDigits] at hc
  | succ fuel ih =>
    intro c hc
    unfold natDigits at hc
    split at hc
    · simp only [List.mem_singleton] at hc
      exact hc ▸ digitChar_mem n
    · rcases List.mem_append.mp hc with h | h
      · exact ih _ c h
      · simp only [List.mem_singleton] at h
        exact h ▸ digitChar_mem _

theorem digitsValue_append_singleton (cs : List Char) (c : Char) :
    digitsValue (cs ++ [c]) = digitsValue cs * 10 + (Time.digitVal c).getD 0 := by
  simp [digitsValue, List.foldl_append]

theorem digitsValue_natDigits (fuel n : Nat) (h : n < 10 ^ fuel) :
    digitsValue (natDigits fuel n) = n := by
  induction fuel generalizing n with
  | zero => simp at h; subst h; simp [natDigits, digitsValue]
  | succ fuel ih =>
    unfold natDigits
    split
    · rename_i hlt
      simp [digitsValue, digitVal_digitChar n hlt]
    · have hdiv : n / 10 < 10 ^ fuel := by
        rw [Nat.div_lt_iff_lt_mul (by norm_num)]
        rw [pow_succ] at h
        exact h
      rw [digitsValue_append_singleton, ih _ hdiv, digitVal_digitChar _ (Nat.mod_lt _ (by norm_num))]
      simp only [Option.getD_some]
      omega

theorem decimal_mem (n : Nat) : ∀ c ∈ decimal n, c ∈ digitChars := natDigits_mem _ _

theorem digitsValue_decimal (n : Nat) : digitsValue (decimal n) = n :=
  digitsValue_natDigits _ _ (Nat.lt_of_lt_of_le (Nat.lt_pow_self (by norm_num) n)
    (Nat.pow_le_pow_right (by norm_num) (Nat.le_succ n)))

theorem decimal_injective {a b : Nat} (h : decimal a = decimal b) : a = b := by
  have := congrArg digitsValue h
  rwa [digitsValue_decimal, digitsValue_decimal] at this

theorem natDigits_length_pos (fuel n : Nat) : 0 < (natDigits (fuel + 1) n).length := by
  unfold natDigits
  split <;> simp

theorem decimal_ne_nil (n : Nat) : decimal n ≠ [] := by
  intro h
  have := natDigits_length_pos n n
  unfold decimal at h
  rw [h] at this
  simp at this

theorem natDigits_length_le (fuel n k : Nat) (hk : 1 ≤ k) (h : n < 10 ^ k) :
    (natDigits fuel n).length ≤ k := by
  induction fuel generalizing n k with
  | zero => simp [natDigits]
  | succ fuel ih =>
    unfold natDigits
    split
    · simpa using hk
    · rename_i hge
      have hk2 : 2 ≤ k := by
        by_contra hlt
        have : k = 1 := by omega
        subst this
        simp at h
        omega
      obtain ⟨j, rfl⟩ : ∃ j, k = j + 1 := ⟨k - 1, by omega⟩
      have hdiv : n / 10 < 10 ^ j := by
        rw [Nat.div_lt_iff_lt_mul (by norm_num)]
        rw [pow_succ] at h
        exact h
      have := ih (n / 10) j (by omega) hdiv
      simp only [List.length_append, List.length_singleton]
      omega

theorem padDigits_length (width n : Nat) (hw : 1 ≤ width) (h : n < 10 ^ width) :
    (padDigits width n).data.length = width := by
  have := natDigits_length_le (n + 1) n width hw h
  simp only [padDigits, List.length_append, List.length_replicate]
  unfold decimal
  omega

theorem padDigits_mem (width n : Nat) : ∀ c ∈ (padDigits width n).data, c ∈ digitChars := by
  intro c hc
  simp only [padDigits, List.mem_append] at hc
  rcases hc with h | h
  · rw [(List.mem_replicate.mp h).2]; simp [digitChars]
  · exact decimal_mem n c h


/-! ## Facts about the token -/

theorem colon_not_digit : ':' ∉ digitChars := by decide

theorem fmtInt_data (x : Int) :
    (fmtInt x).data = (if x < 0 then ['-'] else []) ++ decimal x.natAbs := by
  unfold fmtInt signStr fmtNat
  by_cases h : x < 0 <;> simp [h]

theorem fmtInt_no_colon (x : Int) : ':' ∉ (fmtInt x).data := by
  rw [fmtInt_data]
  intro h
  rcases List.mem_append.mp h with h | h
  · split at h <;> simp at h
  · exact colon_not_digit (decimal_mem _ _ h)

theorem fmtInt_injective {x y : Int} (h : fmtInt x = fmtInt y) : x = y := by
  have hd := congrArg String.data h
  rw [fmtInt_data, fmtInt_data] at hd
  have hx := decimal_ne_nil x.natAbs
  have hy := decimal_ne_nil y.natAbs
  by_cases hxn : x < 0 <;> by_cases hyn : y < 0 <;> simp only [hxn, hyn, if_true, if_false] at hd
  · have := decimal_injective (List.cons.inj hd).2
    omega
  · have hmem : '-' ∈ decimal y.natAbs := by
      simp only [List.nil_append] at hd; rw [← hd]; simp
    exact absurd (decimal_mem _ _ hmem) (by decide)
  · have hmem : '-' ∈ decimal x.natAbs := by
      simp only [List.nil_append] at hd; rw [hd]; simp
    exact absurd (decimal_mem _ _ hmem) (by decide)
  · have := decimal_injective (by simpa using hd)
    omega

theorem fmtFloat_no_colon (prec : Nat) (f : Float64) : ':' ∉ (fmtFloat prec f).data := by
  cases f with
  | nan => simp only [fmtFloat]; decide
  | inf neg => cases neg <;> simp only [fmtFloat] <;> decide
  | finite neg m e =>
    simp only [fmtFloat, String.data_append, fmtNat]
    intro h
    have hs : ':' ∉ (signStr neg).data := by cases neg <;> decide
    rcases List.mem_append.mp h with h | h
    · rcases List.mem_append.mp h with h | h
      · exact hs h
      · exact colon_not_digit (decimal_mem _ _ h)
    · split at h
      · simp at h
      · simp only [String.data_append, List.mem_append] at h
        rcases h with h | h
        · revert h; decide
        · exact colon_not_digit (padDigits_mem _ _ _ h)

/-- A list is cut in one way only at the first occurrence of a separator. -/
theorem split_first {c : Char} :
    ∀ {a a2 b b2 : List Char}, c ∉ a → c ∉ a2 → a ++ c :: b = a2 ++ c :: b2 → a = a2 ∧ b = b2
  | [], [], _, _, _, _, h => ⟨rfl, by simpa using h⟩
  | [], x :: a2, _, _, _, h2, h => by
    simp only [List.nil_append, List.cons_append, List.cons.injEq] at h
    exact absurd (h.1 ▸ List.mem_cons_self _ _) h2
  | x :: a, [], _, _, h1, _, h => by
    simp only [List.nil_append, List.cons_append, List.cons.injEq] at h
    exact absurd (h.1 ▸ List.mem_cons_self _ _) h1
  | x :: a, y :: a2, b, b2, h1, h2, h => by
    simp only [List.cons_append, List.cons.injEq] at h
    have := split_first (fun hm => h1 (List.mem_cons_of_mem _ hm))
      (fun hm => h2 (List.mem_cons_of_mem _ hm)) h.2
    exact ⟨by rw [h.1, this.1], this.2⟩

/-- A list is cut in one way only at the last occurrence of a separator. -/
theorem split_last {c : Char} {a a2 b b2 : List Char} (hb : c ∉ b) (hb2 : c ∉ b2)
    (h : a ++ c :: b = a2 ++ c :: b2) : a = a2 ∧ b = b2 := by
  have hr := congrArg List.reverse h
  simp only [List.reverse_append, List.reverse_cons, List.append_assoc, List.singleton_append]
    at hr
  have := split_first (by simpa using hb) (by simpa using hb2) hr
  exact ⟨List.reverse_injective this.2, List.reverse_injective this.1⟩

theorem GenerateToken_data (m : PubSubMessage) (b : BillingMessage) :
    (GenerateToken m b).data =
      (m.Attributes.BudgetId.data ++ ':' :: (fmtInt b.CostIntervalStart.Unix).data) ++
        ':' :: (fmtFloat 6 b.AlertThresholdExceeded).data := by
  simp [GenerateToken]

/-- The three components of a token are determined by the token. -/
theorem token_components {m1 m2 : PubSubMessage} {b1 b2 : BillingMessage}
    (h : GenerateToken m1 b1 = GenerateToken m2 b2) :
    m1.Attributes.BudgetId = m2.Attributes.BudgetId ∧
      b1.CostIntervalStart.Unix = b2.CostIntervalStart.Unix ∧
      fmtFloat 6 b1.AlertThresholdExceeded = fmtFloat 6 b2.AlertThresholdExceeded := by
  have hd := congrArg String.data h
  rw [GenerateToken_data, GenerateToken_data] at hd
  obtain ⟨h12, h3⟩ := split_last (fmtFloat_no_colon _ _) (fmtFloat_no_colon _ _) hd
  obtain ⟨h1, h2⟩ := split_last (fmtInt_no_colon _) (fmtInt_no_colon _) h12
  exact ⟨String.ext h1, fmtInt_injective (String.ext h2), String.ext h3⟩

/-! ## The token: format, collisions and injectivity -/

/-- C10. Two inputs with the same token have the same budget id and interval starts with the
same epoch seconds, whatever characters (colons included) the budget ids contain: the rendered
seconds and the rendered threshold contain no colon, so that a token is cut in one way only at
its last two colons. -/
theorem GenerateToken_injective (m1 m2 : PubSubMessage) (b1 b2 : BillingMessage)
    (h : GenerateToken m1 b1 = GenerateToken m2 b2) :
    (m1.Attributes.BudgetId = m2.Attributes.BudgetId ∧
        b1.CostIntervalStart.Unix = b2.CostIntervalStart.Unix) ∧
      ':' ∉ (fmtInt b1.CostIntervalStart.Unix).data ∧
      ':' ∉ (fmtFloat 6 b1.AlertThresholdExceeded).data :=
  ⟨⟨(token_components h).1, (token_components h).2.1⟩, fmtInt_no_colon _,
    fmtFloat_no_colon _ _⟩

/-- C10, at two messages with the budget id `a:1:b` that differ in the billing account and in
the display name. -/
theorem GenerateToken_injective_witness :
    GenerateToken (colonMessage "x") (testBillingMessage 0) =
        GenerateToken (colonMessage "y")
          { testBillingMessage 0 with BudgetDisplayName := "other" } ∧
      (colonMessage "x").Attributes.BudgetId = (colonMessage "y").Attributes.BudgetId ∧
      (testBillingMessage 0).CostIntervalStart.Unix =
        ({ testBillingMessage 0 with BudgetDisplayName := "other" } :
          BillingMessage).CostIntervalStart.Unix :=
  ⟨by decide,
    (GenerateToken_injective (colonMessage "x") (colonMessage "y") (testBillingMessage 0)
      { testBillingMessage 0 with BudgetDisplayName := "other" } (by decide)).1⟩

/-! ## Facts about the rendering of floats -/

theorem roundHalfEven_bounds (num den : Nat) (hden : 0 < den) :
    2 * num ≤ 2 * (Float64.roundHalfEven num den * den) + den ∧
      2 * (Float64.roundHalfEven num den * den) ≤ 2 * num + den := by
  have hdm := Nat.div_add_mod num den
  have hlt := Nat.mod_lt num hden
  have hmul : den * (num / den) = num / den * den := Nat.mul_comm _ _
  unfold Float64.roundHalfEven
  simp only
  split
  · rename_i hup
    rw [Nat.add_mul, Nat.one_mul]
    rcases hup with h | ⟨h, _⟩ <;> omega
  · rename_i hdown
    have hle : 2 * (num % den) ≤ den := by
      by_contra hc
      exact hdown (Or.inl (by omega))
    omega

theorem roundHalfEven_near (num den : Nat) (hden : 0 < den) :
    |(num : ℚ) / den - Float64.roundHalfEven num den| ≤ 1 / 2 := by
  obtain ⟨h1, h2⟩ := roundHalfEven_bounds num den hden
  have hd : (0 : ℚ) < den := by exact_mod_cast hden
  have c1 : (2 : ℚ) * num ≤ 2 * (Float64.roundHalfEven num den * den) + den := by
    exact_mod_cast h1
  have c2 : (2 : ℚ) * (Float64.roundHalfEven num den * den) ≤ 2 * num + den := by
    exact_mod_cast h2
  rw [abs_le]
  constructor
  · have : (Float64.roundHalfEven num den : ℚ) - 1 / 2 ≤ num / den := by
      rw [le_div_iff₀ hd]
      linarith
    linarith
  · have : (num : ℚ) / den ≤ Float64.roundHalfEven num den + 1 / 2 := by
      rw [div_le_iff₀ hd]
      linarith
    linarith

/-- The rounded scaled magnitude is within one half of the exact scaled magnitude. -/
theorem scaledRound_near (m : Nat) (e : Int) (prec : Nat) :
    |(m : ℚ) * (2 : ℚ) ^ e * (10 : ℚ) ^ prec - Float64.scaledRound m e prec| ≤ 1 / 2 := by
  unfold Float64.scaledRound
  split
  · rename_i hneg
    have he : e = -(((-e).toNat : Nat) : Int) := by
      rw [Int.toNat_of_nonneg (by omega)]; ring
    have key : (m : ℚ) * (2 : ℚ) ^ e * (10 : ℚ) ^ prec =
        ((m * 10 ^ prec : Nat) : ℚ) / ((2 ^ (-e).toNat : Nat) : ℚ) := by
      conv_lhs => rw [he]
      rw [zpow_neg, zpow_natCast]
      push_cast
      field_simp
    rw [key]
    exact roundHalfEven_near _ _ (Nat.pos_pow_of_pos _ (by norm_num))
  · rename_i hnn
    have he : e = (((e.toNat : Nat)) : Int) := by
      rw [Int.toNat_of_nonneg (by omega)]
    have key : (m : ℚ) * (2 : ℚ) ^ e * (10 : ℚ) ^ prec =
        ((m * 2 ^ e.toNat * 10 ^ prec : Nat) : ℚ) := by
      conv_lhs => rw [he]
      rw [zpow_natCast]
      push_cast
      ring
    rw [key, sub_self, abs_zero]
    norm_num

/-- A finite value rendered with no decimals is its sign followed by a nearest integer. -/
theorem fmtFloat_zero_finite (neg : Bool) (m : Nat) (e : Int) :
    fmtFloat 0 (Float64.finite neg m e) = signStr neg ++ fmtNat (Float64.scaledRound m e 0) := by
  simp [fmtFloat]

/-- A finite value rendered with six decimals is its sign, an integer part, a point and six
digits. -/
theorem fmtFloat_six_finite (neg : Bool) (m : Nat) (e : Int) :
    fmtFloat 6 (Float64.finite neg m e) =
        signStr neg ++ fmtNat (Float64.scaledRound m e 6 / 10 ^ 6) ++ "." ++
          padDigits 6 (Float64.scaledRound m e 6 % 10 ^ 6) ∧
      (padDigits 6 (Float64.scaledRound m e 6 % 10 ^ 6)).length = 6 := by
  constructor
  · simp [fmtFloat, String.append_assoc]
  · exact padDigits_length 6 _ (by norm_num) (Nat.mod_lt _ (by norm_num))

/-- C3 fails. The thresholds 0.1 and 0.10000001 are different `float64` values, and the
interval starts 2019-09-04T05:59:36Z and 2019-09-04T05:59:36.5Z are different times, yet the
tokens are the same. -/
theorem GenerateToken_collision :
    (Float64.ofDecimal false 1 (-1) ≠ Float64.ofDecimal false 10000001 (-8) ∧
      (Float64.ofDecimal false 1 (-1)).Canonical = true ∧
      (Float64.ofDecimal false 10000001 (-8)).Canonical = true ∧
      GenerateToken testPubSubMessage (withThreshold (Float64.ofDecimal false 1 (-1))) =
        GenerateToken testPubSubMessage
          (withThreshold (Float64.ofDecimal false 10000001 (-8)))) ∧
    (Time.parseRFC3339 "2019-09-04T05:59:36Z" =
        some { sec := 1567576776, nsec := 0, offset := 0 } ∧
      Time.parseRFC3339 "2019-09-04T05:59:36.5Z" =
        some { sec := 1567576776, nsec := 500000000, offset := 0 } ∧
      ({ sec := 1567576776, nsec := 0, offset := 0 } : Time) ≠
        { sec := 1567576776, nsec := 500000000, offset := 0 } ∧
      GenerateToken testPubSubMessage
          (withIntervalStart { sec := 1567576776, nsec := 0, offset := 0 }) =
        GenerateToken testPubSubMessage
          (withIntervalStart { sec := 1567576776, nsec := 500000000, offset := 0 })) := by
  set_option maxRecDepth 100000 in decide

/-- C3 (amended). Two alerts have the same token exactly when their budget ids are equal, their
interval starts have the same epoch seconds and their thresholds have the same rendering with
six decimals: a difference in one of the three gives different tokens. -/
theorem GenerateToken_eq_iff (m1 m2 : PubSubMessage) (b1 b2 : BillingMessage) :
    GenerateToken m1 b1 = GenerateToken m2 b2 ↔
      (m1.Attributes.BudgetId = m2.Attributes.BudgetId ∧
        b1.CostIntervalStart.Unix = b2.CostIntervalStart.Unix ∧
        fmtFloat 6 b1.AlertThresholdExceeded = fmtFloat 6 b2.AlertThresholdExceeded) := by
  constructor
  · exact token_components
  · rintro ⟨h1, h2, h3⟩
    simp only [GenerateToken, h1, h2, h3]

/-! ## Facts about the calendar fields -/

theorem civilFromDays_month_bounds (days : Int) :
    1 ≤ (Time.civilFromDays days).2.1 ∧ (Time.civilFromDays days).2.1 ≤ 12 := by
  simp only [Time.civilFromDays]
  split <;> omega

theorem Month_bounds (t : Time) : 1 ≤ t.Month ∧ t.Month ≤ 12 :=
  civilFromDays_month_bounds _

theorem appendInt_nonneg (x : Int) (width : Nat) (h : 0 ≤ x) :
    appendInt x width = padDigits width x.toNat := by
  have hn : ¬ x < 0 := by omega
  have hx : x.natAbs = x.toNat := by omega
  simp [appendInt, signStr, hn, hx]

theorem Format_eq (t : Time) (hy : 0 ≤ t.Year) :
    t.Format = padDigits 4 t.Year.toNat ++ "年" ++ padDigits 2 t.Month.toNat ++ "月" := by
  unfold Time.Format
  rw [appendInt_nonneg _ _ hy, appendInt_nonneg _ _ (by have := (Month_bounds t).1; omega)]

theorem Format_of_localDays (t : Time) (d : Int) (h : t.localDays = d) :
    t.Format = appendInt (Time.civilFromDays d).1 4 ++ "年" ++
      appendInt (Time.civilFromDays d).2.1 2 ++ "月" := by
  subst h; rfl

/-! ## The text of the notification -/

theorem fmtFloat_zero_near (f : Float64) (h : f.isFinite = true) :
    ∃ n : Nat, fmtFloat 0 f = signStr f.signBit ++ fmtNat n ∧ |f.absVal - n| ≤ 1 / 2 := by
  cases f with
  | finite neg m e =>
    refine ⟨Float64.scaledRound m e 0, fmtFloat_zero_finite neg m e, ?_⟩
    have := scaledRound_near m e 0
    simpa [Float64.absVal] using this
  | inf neg => simp [Float64.isFinite] at h
  | nan => simp [Float64.isFinite] at h

/-- C8 fails outside the range of ordinary alerts: an infinite budget amount is rendered
`+Inf`, a threshold of 1e307 (a number that JSON can carry) gives an infinite percentage, and
the first month of the year 10000 is rendered with a five digit year. -/
theorem GenerateMessage_out_of_range :
    GenerateMessage (withBudgetAmount (Float64.inf false)) =
        "[Hogehoge] 2019年09月 予算(+Inf円)の10%に達しました。現在の利用額: 100円" ∧
      GenerateMessage (withThreshold (Float64.ofDecimal false 1 307)) =
        "[Hogehoge] 2019年09月 予算(1000円)の+Inf%に達しました。現在の利用額: 100円" ∧
      GenerateMessage (withIntervalStart { sec := 253402300800, nsec := 0, offset := 0 }) =
        "[Hogehoge] 10000年01月 予算(1000円)の10%に達しました。現在の利用額: 100円" := by
  set_option maxRecDepth 100000 in
  set_option exponentiation.threshold 2000 in
  decide

/-- C8 (amended). For an alert whose budget amount, cost amount and product threshold * 100
are finite and whose interval start lies in the years 0 to 9999 of its location, the text is
the template filled with the display name, the year on four digits, the month on two digits,
and the two amounts and the `float64` product threshold * 100 each rendered as its sign
followed by a nearest integer, with no decimals. The alert of the test suite gives the text of
the test in every location between UTC-12:00 and UTC+14:00. -/
theorem GenerateMessage_format :
    (∀ b : BillingMessage,
      b.BudgetAmount.isFinite = true →
      b.CostAmount.isFinite = true →
      (b.AlertThresholdExceeded.mul (Float64.ofNat 100)).isFinite = true →
      0 ≤ b.CostIntervalStart.Year → b.CostIntervalStart.Year ≤ 9999 →
      ∃ nB nP nC : Nat,
        GenerateMessage b =
            "[" ++ b.BudgetDisplayName ++ "] " ++
            padDigits 4 b.CostIntervalStart.Year.toNat ++ "年" ++
            padDigits 2 b.CostIntervalStart.Month.toNat ++ "月" ++
            " 予算(" ++ signStr b.BudgetAmount.signBit ++ fmtNat nB ++
            "円)の" ++
            signStr (b.AlertThresholdExceeded.mul (Float64.ofNat 100)).signBit ++ fmtNat nP ++
            "%に達しました。現在の利用額: " ++ signStr b.CostAmount.signBit ++ fmtNat nC ++ "円" ∧
          (padDigits 4 b.CostIntervalStart.Year.toNat).length = 4 ∧
          (padDigits 2 b.CostIntervalStart.Month.toNat).length = 2 ∧
          1 ≤ b.CostIntervalStart.Month ∧ b.CostIntervalStart.Month ≤ 12 ∧
          |b.BudgetAmount.absVal - nB| ≤ 1 / 2 ∧
          |(b.AlertThresholdExceeded.mul (Float64.ofNat 100)).absVal - nP| ≤ 1 / 2 ∧
          |b.CostAmount.absVal - nC| ≤ 1 / 2) ∧
    (∀ offset : Int, -43200 ≤ offset → offset ≤ 50400 →
      GenerateMessage (testBillingMessage offset) =
        "[Hogehoge] 2019年09月 予算(1000円)の10%に達しました。現在の利用額: 100円") := by
  constructor
  · intro b hB hC hP hy0 hy1
    obtain ⟨nB, hBs, hBn⟩ := fmtFloat_zero_near _ hB
    obtain ⟨nP, hPs, hPn⟩ := fmtFloat_zero_near _ hP
    obtain ⟨nC, hCs, hCn⟩ := fmtFloat_zero_near _ hC
    have hm := Month_bounds b.CostIntervalStart
    refine ⟨nB, nP, nC, ?_, ?_, ?_, hm.1, hm.2, hBn, hPn, hCn⟩
    · simp only [GenerateMessage, hBs, hPs, hCs, Format_eq _ hy0, String.append_assoc]
    · exact padDigits_length 4 _ (by norm_num) (by omega)
    · exact padDigits_length 2 _ (by norm_num) (by omega)
  · intro offset h1 h2
    have hd : (testBillingMessage offset).CostIntervalStart.localDays = 18142 ∨
        (testBillingMessage offset).CostIntervalStart.localDays = 18143 := by
      simp only [Time.localDays, testBillingMessage]
      omega
    have hrest : ∀ s : String, (testBillingMessage offset).CostIntervalStart.Format = s →
        GenerateMessage (testBillingMessage offset) =
          "[" ++ "Hogehoge" ++ "] " ++ s ++
          " 予算(" ++ fmtFloat 0 (Float64.ofNat 1000) ++
          "円)の" ++ fmtFloat 0 ((Float64.ofDecimal false 1 (-1)).mul (Float64.ofNat 100)) ++
          "%に達しました。現在の利用額: " ++ fmtFloat 0 (Float64.ofDecimal false 10023 (-2)) ++ "円" := by
      intro s hs
      rw [← hs]
      rfl
    rcases hd with hd | hd
    · rw [hrest _ (Format_of_localDays _ _ hd)]
      set_option maxRecDepth 100000 in decide
    · rw [hrest _ (Format_of_localDays _ _ hd)]
      set_option maxRecDepth 100000 in decide

/-- C8 (amended), at the alert of the test suite in UTC. -/
theorem GenerateMessage_format_witness :
    ∃ nB nP nC : Nat,
      GenerateMessage (testBillingMessage 0) =
          "[" ++ (testBillingMessage 0).BudgetDisplayName ++ "] " ++
          padDigits 4 (testBillingMessage 0).CostIntervalStart.Year.toNat ++ "年" ++
          padDigits 2 (testBillingMessage 0).CostIntervalStart.Month.toNat ++ "月" ++
          " 予算(" ++ signStr (testBillingMessage 0).BudgetAmount.signBit ++ fmtNat nB ++
          "円)の" ++
          signStr ((testBillingMessage 0).AlertThresholdExceeded.mul
            (Float64.ofNat 100)).signBit ++ fmtNat nP ++
          "%に達しました。現在の利用額: " ++
          signStr (testBillingMessage 0).CostAmount.signBit ++ fmtNat nC ++ "円" ∧
        (padDigits 4 (testBillingMessage 0).CostIntervalStart.Year.toNat).length = 4 ∧
        (padDigits 2 (testBillingMessage 0).CostIntervalStart.Month.toNat).length = 2 ∧
        1 ≤ (testBillingMessage 0).CostIntervalStart.Month ∧
        (testBillingMessage 0).CostIntervalStart.Month ≤ 12 ∧
        |(testBillingMessage 0).BudgetAmount.absVal - nB| ≤ 1 / 2 ∧
        |((testBillingMessage 0).AlertThresholdExceeded.mul
          (Float64.ofNat 100)).absVal - nP| ≤ 1 / 2 ∧
        |(testBillingMessage 0).CostAmount.absVal - nC| ≤ 1 / 2 :=
  GenerateMessage_format.1 (testBillingMessage 0)
    (by set_option maxRecDepth 100000 in decide) (by set_option maxRecDepth 100000 in decide)
    (by set_option maxRecDepth 100000 in decide) (by decide) (by decide)

/-! ## Facts about the counter store -/

theorem field?_setField_same (d : Document) (k : String) (v : Value) :
    (d.setField k v).field? k = some v := by
  induction d with
  | nil => simp [Document.setField, Document.field?]
  | cons kv rest ih =>
    obtain ⟨k1, w⟩ := kv
    by_cases h : k1 = k
    · simp [Document.setField, Document.field?, h]
    · simp [Document.setField, Document.field?, h, ih]

theorem field?_setField_other (d : Document) (k k2 : String) (v : Value) (hk : k2 ≠ k) :
    (d.setField k2 v).field? k = d.field? k := by
  induction d with
  | nil => simp [Document.setField, Document.field?, hk]
  | cons kv rest ih =>
    obtain ⟨k1, w⟩ := kv
    by_cases h : k1 = k2
    · subst h
      simp [Document.setField, Document.field?, hk]
    · by_cases h2 : k1 = k
      · subst h2
        simp [Document.setField, Document.field?, h]
      · simp [Document.setField, Document.field?, h, h2, ih]

/-- After the write of `CheckDuplicate` the field `used` holds the written counter. -/
theorem field?_merge_used (d : Document) (v w : Value) :
    (Document.merge d [("used", v), ("updated_at", w)]).field? "used" = some v := by
  simp only [Document.merge, List.foldl]
  rw [field?_setField_other _ _ _ _ (by decide), field?_setField_same]

theorem setMerge_same (s : Store) (c i : String) (fields : List (String × Value)) :
    s.setMerge c i fields c i = some (Document.merge ((s c i).getD []) fields) := by
  simp [Store.setMerge]

theorem setMerge_other (s : Store) (c i c2 i2 : String) (fields : List (String × Value))
    (h : ¬ (c2 = c ∧ i2 = i)) : s.setMerge c i fields c2 i2 = s c2 i2 := by
  simp [Store.setMerge, h]

theorem wrapInt64_succ (x : Int) : wrapInt64 (wrapInt64 x + 1) = wrapInt64 (x + 1) := by
  unfold wrapInt64
  omega

theorem wrapInt64_one : wrapInt64 1 = 1 := by decide

/-- The body of the transaction reads nothing but the document of the token. -/
theorem claimBody_congr (fx : Faults) (s s2 : Store) (c t : String) (h : s c t = s2 c t) :
    claimBody fx s c t = claimBody fx s2 c t := by
  simp only [claimBody, txGet, h]

theorem claimBody_absent (s : Store) (c t : String) (h : s c t = none) :
    claimBody Faults.none s c t = Except.ok 1 := by
  simp [claimBody, txGet, Faults.none, h, wrapInt64_one]

theorem claimBody_int (s : Store) (c t : String) (doc : Document) (u : Int)
    (h : s c t = some doc) (hu : doc.field? "used" = some (Value.int u)) :
    claimBody Faults.none s c t = Except.ok (wrapInt64 (u + 1)) := by
  simp [claimBody, txGet, Faults.none, h, DataAt, hu]

/-- What `CheckDuplicate` does once the body of the transaction has computed `newUsed` and
the commit succeeds. -/
theorem CheckDuplicate_of_body (fx : Faults) (now : Int) (s : Store) (c t : String) (v : Int)
    (hfx : fx.commitFails = false) (h : claimBody fx s c t = Except.ok v) :
    (CheckDuplicate fx now s c t).err = (if v ≠ 1 then some AlreadyUsedErr else none) ∧
      (CheckDuplicate fx now s c t).store =
        s.setMerge c t [("used", Value.int v), ("updated_at", Value.int now)] := by
  unfold CheckDuplicate
  rw [h]
  simp only [hfx]
  by_cases hv : v = 1 <;> simp [hv]

/-! ## Sequences of claims -/

/-- One committed call: its verdict, and the counters that the next calls will read. -/
theorem CheckDuplicate_step (c : String) (s : Store) (cnt : String → Nat)
    (hinv : ∀ t, claimBody Faults.none s c t = Except.ok (wrapInt64 ((cnt t : Int) + 1)))
    (tok : String) (now : Int) :
    (CheckDuplicate Faults.none now s c tok).err = verdict (cnt tok) ∧
      ∀ t, claimBody Faults.none (CheckDuplicate Faults.none now s c tok).store c t =
        Except.ok (wrapInt64 (((cnt t + if t = tok then 1 else 0 : Nat) : Int) + 1)) := by
  obtain ⟨herr, hstore⟩ := CheckDuplicate_of_body Faults.none now s c tok _ rfl (hinv tok)
  refine ⟨by rw [herr]; rfl, ?_⟩
  intro t
  rw [hstore]
  by_cases ht : t = tok
  · subst ht
    rw [claimBody_int _ _ _ _ _ (setMerge_same _ _ _ _) (field?_merge_used _ _ _),
      wrapInt64_succ]
    simp only [if_true]
    push_cast
    rfl
  · rw [claimBody_congr _ _ s _ _ (setMerge_other _ _ _ _ _ _ (fun h => ht h.2)), hinv t]
    simp [ht]

/-- The verdict of every call of a sequence without failures, from the number of earlier calls
with its token. -/
theorem runCalls_get (c : String) :
    ∀ (calls : List Call) (s : Store) (cnt : String → Nat),
      (∀ call ∈ calls, call.faults = Faults.none) →
      (∀ t, claimBody Faults.none s c t = Except.ok (wrapInt64 ((cnt t : Int) + 1))) →
      ∀ (i : Nat) (call : Call), calls[i]? = some call →
        (runCalls c s calls)[i]? =
          some (verdict (cnt call.token + ((calls.take i).map Call.token).count call.token))
  | [], _, _, _, _, i, call, h => by simp at h
  | c0 :: rest, s, cnt, hf, hinv, 0, call, h => by
    simp only [List.getElem?_cons_zero, Option.some.injEq] at h
    subst h
    have hf0 := hf c0 (List.mem_cons_self _ _)
    simp [runCalls, hf0, (CheckDuplicate_step c s cnt hinv c0.token c0.now).1]
  | c0 :: rest, s, cnt, hf, hinv, i + 1, call, h => by
    simp only [List.getElem?_cons_succ] at h
    have hf0 := hf c0 (List.mem_cons_self _ _)
    have ih := runCalls_get c rest _ _ (fun x hx => hf x (List.mem_cons_of_mem _ hx))
      (CheckDuplicate_step c s cnt hinv c0.token c0.now).2 i call h
    simp only [runCalls, hf0, List.getElem?_cons_succ, ih, List.take_succ_cons, List.map_cons,
      List.count_cons]
    congr 2
    by_cases hc : call.token = c0.token
    · simp [hc]; omega
    · have hc2 : ¬ c0.token = call.token := fun h => hc h.symm
      simp [hc, hc2]

theorem claimBody_empty (c t : String) :
    claimBody Faults.none Store.empty c t = Except.ok (wrapInt64 (((0 : Nat) : Int) + 1)) := by
  rw [claimBody_absent _ _ _ rfl]; rfl

theorem verdict_zero : verdict 0 = none := by decide

theorem verdict_pos (k : Nat) (h0 : 0 < k) (h1 : k < 2 ^ 64) : verdict k = some AlreadyUsedErr := by
  have : wrapInt64 ((k : Int) + 1) ≠ 1 := by
    unfold wrapInt64
    omega
  simp [verdict, this]

theorem verdict_wrap : verdict (2 ^ 64) = none := by decide

/-- The last of `n + 1` calls with one token gets the verdict of `n` earlier claims. -/
theorem runCalls_replicate (collection : String) (call : Call) (n : Nat)
    (hf : call.faults = Faults.none) :
    (runCalls collection Store.empty (List.replicate (n + 1) call))[n]? = some (verdict n) := by
  have h := runCalls_get collection (List.replicate (n + 1) call) Store.empty (fun _ => 0)
    (fun x hx => by rw [(List.mem_replicate.mp hx).2]; exact hf)
    (claimBody_empty collection) n call
    (by rw [List.getElem?_replicate, if_pos (Nat.lt_succ_self n)])
  rw [h, List.take_replicate, List.map_replicate, List.count_replicate_self, Nat.zero_add,
    Nat.min_eq_left (Nat.le_succ n)]

/-- C1 fails in two ways. Of 2^64 + 1 committed calls with one token, the last one returns nil
like the first, because the 64 bit counter has wrapped around. And a second call whose read
fails while its transaction commits returns nil like the first. -/
theorem runCalls_wraps :
    (runCalls "hoge" Store.empty
        (List.replicate (2 ^ 64 + 1)
          { token := "token1", now := 0, faults := Faults.none }))[2 ^ 64]? = some none ∧
      runCalls "hoge" Store.empty
          [{ token := "token1", now := 0, faults := Faults.none },
            { token := "token1", now := 1,
              faults := { readFails := true, commitFails := false } }] =
        [none, none] :=
  ⟨(runCalls_replicate "hoge" { token := "token1", now := 0, faults := Faults.none }
      (2 ^ 64) rfl).trans (congrArg some verdict_wrap),
    by decide⟩

/-- C1 (amended). From the empty store, in a sequence of calls whose reads and commits do not
fail and in which no token occurs more than 2^64 times, a call returns nil when no earlier call
has its token and `AlreadyUsedErr` when one has, however calls with other tokens are
interleaved. -/
theorem runCalls_first_claim (collection : String) (calls : List Call)
    (hfaults : ∀ call ∈ calls, call.faults = Faults.none)
    (hbound : ∀ t, (calls.map Call.token).count t ≤ 2 ^ 64)
    (i : Nat) (call : Call) (hi : calls[i]? = some call) :
    (runCalls collection Store.empty calls)[i]? =
      some (if call.token ∈ (calls.take i).map Call.token then some AlreadyUsedErr else none) := by
  rw [runCalls_get collection calls Store.empty (fun _ => 0) hfaults (claimBody_empty collection)
    i call hi]
  simp only [Nat.zero_add]
  refine congrArg some ?_
  by_cases hmem : call.token ∈ (calls.take i).map Call.token
  · simp only [hmem, if_true]
    have hpos : 0 < ((calls.take i).map Call.token).count call.token :=
      List.count_pos_iff.mpr hmem
    have hlt : ((calls.take i).map Call.token).count call.token < 2 ^ 64 := by
      have hb := hbound call.token
      have hil : i < calls.length := by
        by_contra hge
        rw [List.getElem?_eq_none (by omega)] at hi
        exact absurd hi (by simp)
      have hsplit : calls = calls.take i ++ call :: calls.drop (i + 1) := by
        have hget : calls[i] = call := by
          rw [List.getElem?_eq_getElem hil] at hi
          exact Option.some.inj hi
        rw [← hget, ← List.drop_eq_getElem_cons hil, List.take_append_drop]
      rw [hsplit] at hb
      simp only [List.map_append, List.map_cons, List.count_append, List.count_cons_self] at hb
      omega
    exact verdict_pos _ hpos hlt
  · simp only [hmem, if_false]
    rw [List.count_eq_zero.mpr hmem]
    exact verdict_zero

/-- The sequence of calls of `TestCheckDuplicate`, without failures. -/
theorem testCalls_faults :
    ∀ call ∈ [(⟨"token1", 0, Faults.none⟩ : Call), ⟨"token2", 1, Faults.none⟩,
      ⟨"token3", 2, Faults.none⟩, ⟨"token2", 3, Faults.none⟩, ⟨"token2", 4, Faults.none⟩,
      ⟨"token4", 5, Faults.none⟩, ⟨"token1", 6, Faults.none⟩], call.faults = Faults.none := by
  intro call h
  simp only [List.mem_cons, List.mem_singleton, List.not_mem_nil, or_false] at h
  rcases h with h | h | h | h | h | h | h <;> rw [h]

/-- C1 (amended), at the sequence of `TestCheckDuplicate`: the fifth call is the third with
`token2`. -/
theorem runCalls_first_claim_witness :
    (runCalls "hoge" Store.empty
        [⟨"token1", 0, Faults.none⟩, ⟨"token2", 1, Faults.none⟩, ⟨"token3", 2, Faults.none⟩,
          ⟨"token2", 3, Faults.none⟩, ⟨"token2", 4, Faults.none⟩, ⟨"token4", 5, Faults.none⟩,
          ⟨"token1", 6, Faults.none⟩])[4]? =
      some (if (⟨"token2", 4, Faults.none⟩ : Call).token ∈
          (List.take 4 [(⟨"token1", 0, Faults.none⟩ : Call), ⟨"token2", 1, Faults.none⟩,
            ⟨"token3", 2, Faults.none⟩, ⟨"token2", 3, Faults.none⟩, ⟨"token2", 4, Faults.none⟩,
            ⟨"token4", 5, Faults.none⟩, ⟨"token1", 6, Faults.none⟩]).map Call.token
        then some AlreadyUsedErr else none) :=
  runCalls_first_claim "hoge"
    [⟨"token1", 0, Faults.none⟩, ⟨"token2", 1, Faults.none⟩, ⟨"token3", 2, Faults.none⟩,
      ⟨"token2", 3, Faults.none⟩, ⟨"token2", 4, Faults.none⟩, ⟨"token4", 5, Faults.none⟩,
      ⟨"token1", 6, Faults.none⟩]
    testCalls_faults
    (fun t => Nat.le_trans (List.count_le_length _ _) (by decide)) 4 ⟨"token2", 4, Faults.none⟩
    rfl

/-! ## A counter that is not a count -/

/-- C5 fails for a negative integer: the stored counter -5 is incremented to -4 and the call
returns `AlreadyUsedErr`, not the error `Invalid Field`. -/
theorem CheckDuplicate_negative_counter :
    (CheckDuplicate Faults.none 7 (Store.single "hoge" "token1" [("used", Value.int (-5))])
        "hoge" "token1").err = some AlreadyUsedErr ∧
      (CheckDuplicate Faults.none 7 (Store.single "hoge" "token1" [("used", Value.int (-5))])
        "hoge" "token1").store "hoge" "token1" =
          some [("used", Value.int (-4)), ("updated_at", Value.int 7)] := by
  decide

/-- C5 (amended). When the read succeeds and the stored value of the field `used` is not an
integer, `CheckDuplicate` fails with the error `Invalid Field`, which is neither nil nor
`AlreadyUsedErr`, and leaves the store as it is. A negative integer is an integer like any
other: when the transaction commits it is incremented and the call returns
`AlreadyUsedErr`. -/
theorem CheckDuplicate_invalid_field :
    (∀ (fx : Faults) (now : Int) (s : Store) (collection token : String) (doc : Document)
        (v : Value),
      fx.readFails = false → s collection token = some doc → doc.field? "used" = some v →
      (∀ i : Int, v ≠ Value.int i) →
      (CheckDuplicate fx now s collection token).err = some (GoError.other "Invalid Field") ∧
        (CheckDuplicate fx now s collection token).err ≠ none ∧
        (CheckDuplicate fx now s collection token).err ≠ some AlreadyUsedErr ∧
        (CheckDuplicate fx now s collection token).store = s) ∧
    (∀ (now : Int) (s : Store) (collection token : String) (doc : Document) (u : Int),
      s collection token = some doc → doc.field? "used" = some (Value.int u) →
      -2 ^ 63 ≤ u → u < 0 →
      (CheckDuplicate Faults.none now s collection token).err = some AlreadyUsedErr ∧
        ∃ doc2, (CheckDuplicate Faults.none now s collection token).store collection token =
            some doc2 ∧ doc2.field? "used" = some (Value.int (u + 1))) := by
  constructor
  · intro fx now s collection token doc v hread hdoc hv hnot
    have hbody : claimBody fx s collection token = Except.error (GoError.other "Invalid Field") := by
      cases v with
      | int i => exact absurd rfl (hnot i)
      | null => simp [claimBody, txGet, hread, hdoc, DataAt, hv]
      | bool b => simp [claimBody, txGet, hread, hdoc, DataAt, hv]
      | double f => simp [claimBody, txGet, hread, hdoc, DataAt, hv]
      | str x => simp [claimBody, txGet, hread, hdoc, DataAt, hv]
      | other x => simp [claimBody, txGet, hread, hdoc, DataAt, hv]
    have hres : CheckDuplicate fx now s collection token =
        { err := some (GoError.other "Invalid Field"), store := s,
          ops := [StoreOp.get collection token] } := by
      unfold CheckDuplicate
      rw [hbody]
    rw [hres]
    exact ⟨rfl, by simp, by simp [AlreadyUsedErr], rfl⟩
  · intro now s collection token doc u hdoc hu hlo hneg
    have hw : wrapInt64 (u + 1) = u + 1 := by
      unfold wrapInt64
      omega
    obtain ⟨herr, hstore⟩ := CheckDuplicate_of_body Faults.none now s collection token _ rfl
      (claimBody_int s collection token doc u hdoc hu)
    rw [hw] at herr hstore
    refine ⟨?_, ?_⟩
    · rw [herr, if_pos (by omega)]
    · rw [hstore]
      exact ⟨_, setMerge_same _ _ _ _, field?_merge_used _ _ _⟩

/-- C5 (amended), at a document whose field `used` holds the string `1`. -/
theorem CheckDuplicate_invalid_field_witness :
    (CheckDuplicate Faults.none 7 (Store.single "hoge" "token1" [("used", Value.str "1")])
        "hoge" "token1").err = some (GoError.other "Invalid Field") ∧
      (CheckDuplicate Faults.none 7 (Store.single "hoge" "token1" [("used", Value.str "1")])
        "hoge" "token1").err ≠ none ∧
      (CheckDuplicate Faults.none 7 (Store.single "hoge" "token1" [("used", Value.str "1")])
        "hoge" "token1").err ≠ some AlreadyUsedErr ∧
      (CheckDuplicate Faults.none 7 (Store.single "hoge" "token1" [("used", Value.str "1")])
        "hoge" "token1").store = Store.single "hoge" "token1" [("used", Value.str "1")] :=
  CheckDuplicate_invalid_field.1 Faults.none 7
    (Store.single "hoge" "token1" [("used", Value.str "1")]) "hoge" "token1"
    [("used", Value.str "1")] (Value.str "1") rfl (by decide) (by decide)
    (fun i h => Value.noConfusion h)

/-! ## A read that fails -/

/-- C6, the code at the failing input: the token of the test message is already claimed
(counter 1), the read of the transaction fails and the commit succeeds. `CheckDuplicate`
returns nil and writes the counter 1 again, and `BillingNotifier` delivers the notification a
second time and returns no error. -/
theorem CheckDuplicate_read_failure :
    (CheckDuplicate readFailureEnv.faults 0
        (Store.single "billing_notifier" testToken [("used", Value.int 1)])
        "billing_notifier" testToken).err = none ∧
      (CheckDuplicate readFailureEnv.faults 0
        (Store.single "billing_notifier" testToken [("used", Value.int 1)])
        "billing_notifier" testToken).store "billing_notifier" testToken =
          some [("used", Value.int 1), ("updated_at", Value.int 0)] ∧
      GenerateToken testNotification
        { BillingMessage.zero with
            AlertThresholdExceeded := Float64.ofDecimal false 2 (-1),
            CostIntervalStart := { sec := 1567321200, nsec := 0, offset := 0 } } = testToken ∧
      (BillingNotifier readFailureEnv
        (Store.single "billing_notifier" testToken [("used", Value.int 1)])
        testNotification).err = none ∧
      (BillingNotifier readFailureEnv
        (Store.single "billing_notifier" testToken [("used", Value.int 1)])
        testNotification).posts = [testText] := by
  set_option maxRecDepth 100000 in decide

/-! ## The entry point with a store that works -/

/-- What `BillingNotifier` does once the payload is decoded, the body of the transaction has
computed `newUsed` and the commit succeeds. -/
theorem BillingNotifier_of_body (env : Env) (s : Store) (m : PubSubMessage)
    (msg : BillingMessage) (v : Int)
    (hclient : env.clientFails = false) (hcommit : env.faults.commitFails = false)
    (hdec : Unmarshal m.Data = Except.ok msg)
    (hbody : claimBody env.faults s env.collection (GenerateToken m msg) = Except.ok v) :
    (BillingNotifier env s m).store =
        s.setMerge env.collection (GenerateToken m msg)
          [("used", Value.int v), ("updated_at", Value.int env.now)] ∧
      (v ≠ 1 → (BillingNotifier env s m).err = none ∧ (BillingNotifier env s m).posts = []) ∧
      (v = 1 → (BillingNotifier env s m).posts = [GenerateMessage msg] ∧
        (env.postFails = false → (BillingNotifier env s m).err = none) ∧
        (env.postFails = true → (BillingNotifier env s m).err =
          some (GoError.wrap "Failed to post slack"
            (GoError.other "slack: webhook request failed")))) := by
  obtain ⟨herr, hstore⟩ :=
    CheckDuplicate_of_body env.faults env.now s env.collection (GenerateToken m msg) v hcommit hbody
  unfold BillingNotifier
  simp only [hclient, hdec, herr, hstore]
  by_cases hv : v = 1
  · simp only [hv, ne_eq, not_true_eq_false, if_false]
    cases hp : env.postFails <;> simp
  · simp [hv]

/-- The counter that the next invocation reads after an invocation that committed. -/
theorem claimBody_after (env : Env) (s : Store) (m : PubSubMessage) (msg : BillingMessage)
    (v : Int) (hclient : env.clientFails = false) (hfaults : env.faults = Faults.none)
    (hdec : Unmarshal m.Data = Except.ok msg)
    (hbody : claimBody Faults.none s env.collection (GenerateToken m msg) = Except.ok v) :
    claimBody Faults.none (BillingNotifier env s m).store env.collection (GenerateToken m msg) =
      Except.ok (wrapInt64 (v + 1)) := by
  have h := (BillingNotifier_of_body env s m msg v hclient (by rw [hfaults]; rfl) hdec
    (by rw [hfaults]; exact hbody)).1
  rw [h]
  exact claimBody_int _ _ _ _ _ (setMerge_same _ _ _ _) (field?_merge_used _ _ _)

/-- C2. A payload that decodes and whose token has no record is delivered once, with the text
of `GenerateMessage`, and the call returns no error; the same message on the store that the
first call leaves is not delivered, and the call returns no error. -/
theorem BillingNotifier_once (collection : String) (now now2 : Int) (s : Store)
    (m : PubSubMessage) (msg : BillingMessage)
    (hdec : Unmarshal m.Data = Except.ok msg)
    (hfresh : s (Env.working collection now).collection (GenerateToken m msg) = none) :
    (BillingNotifier (Env.working collection now) s m).err = none ∧
      (BillingNotifier (Env.working collection now) s m).posts = [GenerateMessage msg] ∧
      (BillingNotifier (Env.working collection now2)
        (BillingNotifier (Env.working collection now) s m).store m).err = none ∧
      (BillingNotifier (Env.working collection now2)
        (BillingNotifier (Env.working collection now) s m).store m).posts = [] := by
  have hbody := claimBody_absent s _ _ hfresh
  have h1 := BillingNotifier_of_body (Env.working collection now) s m msg 1 rfl rfl hdec hbody
  have hafter := claimBody_after (Env.working collection now) s m msg 1 rfl rfl hdec hbody
  have h2 := BillingNotifier_of_body (Env.working collection now2) _ m msg _ rfl rfl hdec hafter
  have hne : wrapInt64 (1 + 1) ≠ 1 := by decide
  exact ⟨(h1.2.2 rfl).2.1 rfl, (h1.2.2 rfl).1, (h2.2.1 hne).1, (h2.2.1 hne).2⟩

/-- C2, at the message of `TestBillingNotifier` on the empty store. -/
theorem BillingNotifier_once_witness :
    (BillingNotifier (Env.working "" 5) Store.empty testNotification).err = none ∧
      (BillingNotifier (Env.working "" 5) Store.empty testNotification).posts =
        [GenerateMessage testDecoded] ∧
      (BillingNotifier (Env.working "" 9)
        (BillingNotifier (Env.working "" 5) Store.empty testNotification).store
        testNotification).err = none ∧
      (BillingNotifier (Env.working "" 9)
        (BillingNotifier (Env.working "" 5) Store.empty testNotification).store
        testNotification).posts = [] :=
  BillingNotifier_once "" 5 9 Store.empty testNotification testDecoded
    (by set_option maxRecDepth 100000 in rfl) rfl

/-! ## Redelivery after a failed delivery -/

theorem verdict_eq_none (k : Nat) : verdict k = none ↔ wrapInt64 ((k : Int) + 1) = 1 := by
  unfold verdict
  by_cases h : wrapInt64 ((k : Int) + 1) = 1
  · rw [if_neg (not_not.mpr h)]
    exact ⟨fun _ => h, fun _ => rfl⟩
  · rw [if_pos h]
    exact ⟨fun h2 => Option.noConfusion h2, fun h2 => absurd h2 h⟩

theorem invokeAll_length (envs : List Env) (s : Store) (m : PubSubMessage) :
    (invokeAll envs s m).length = envs.length := by
  induction envs generalizing s with
  | nil => rfl
  | cons env rest ih => simp [invokeAll, ih]

/-- The outcome of every invocation of a sequence with one message and a store that works,
from the number `k` of claims committed before the sequence. -/
theorem invokeAll_get (collection : String) (m : PubSubMessage) (msg : BillingMessage)
    (hdec : Unmarshal m.Data = Except.ok msg) :
    ∀ (envs : List Env) (s : Store) (k : Nat),
      claimBody Faults.none s collection (GenerateToken m msg) =
        Except.ok (wrapInt64 ((k : Int) + 1)) →
      (∀ env ∈ envs, env.clientFails = false ∧ env.faults = Faults.none ∧
        env.collection = collection) →
      ∀ (i : Nat) (o : Outcome), (invokeAll envs s m)[i]? = some o →
        (verdict (k + i) ≠ none → o.err = none ∧ o.posts = []) ∧
          (verdict (k + i) = none → o.posts = [GenerateMessage msg])
  | [], _, _, _, _, i, o, h => by simp [invokeAll] at h
  | env :: rest, s, k, hinv, henv, 0, o, h => by
    obtain ⟨hc, hf, hcol⟩ := henv env (List.mem_cons_self _ _)
    simp only [invokeAll, List.getElem?_cons_zero, Option.some.injEq] at h
    subst h
    have hb := BillingNotifier_of_body env s m msg _ hc (by rw [hf]; rfl) hdec
      (by rw [hf, hcol]; exact hinv)
    rw [Nat.add_zero]
    constructor
    · intro hv
      exact hb.2.1 (fun h1 => hv ((verdict_eq_none k).mpr h1))
    · intro hv
      exact (hb.2.2 ((verdict_eq_none k).mp hv)).1
  | env :: rest, s, k, hinv, henv, i + 1, o, h => by
    obtain ⟨hc, hf, hcol⟩ := henv env (List.mem_cons_self _ _)
    simp only [invokeAll, List.getElem?_cons_succ] at h
    have hafter := claimBody_after env s m msg _ hc hf hdec (by rw [hcol]; exact hinv)
    rw [hcol, wrapInt64_succ] at hafter
    have ih := invokeAll_get collection m msg hdec rest _ (k + 1)
      (by push_cast; exact hafter)
      (fun e he => henv e (List.mem_cons_of_mem _ he)) i o h
    have hki : k + 1 + i = k + (i + 1) := by omega
    rw [hki] at ih
    exact ih

theorem verdict_ne_none (k : Nat) (h0 : 0 < k) (h1 : k < 2 ^ 64) : verdict k ≠ none := by
  rw [verdict_pos k h0 h1]
  simp

/-- The last of `n + 1` later invocations, in environments that work, after a first invocation
whose delivery failed. -/
theorem invokeAll_replicate (collection : String) (now now2 : Int) (s : Store)
    (m : PubSubMessage) (msg : BillingMessage) (n : Nat)
    (hdec : Unmarshal m.Data = Except.ok msg)
    (hfresh : s (postFailureEnv collection now).collection (GenerateToken m msg) = none)
    (hv : verdict (1 + n) = none) :
    ((invokeAll (List.replicate (n + 1) (Env.working collection now2))
        (BillingNotifier (postFailureEnv collection now) s m).store m)[n]?).map Outcome.posts =
      some [GenerateMessage msg] := by
  have hbody := claimBody_absent s _ _ hfresh
  have hafter := claimBody_after (postFailureEnv collection now) s m msg 1 rfl rfl hdec hbody
  have hlen : n < (invokeAll (List.replicate (n + 1) (Env.working collection now2))
      (BillingNotifier (postFailureEnv collection now) s m).store m).length := by
    rw [invokeAll_length, List.length_replicate]
    exact Nat.lt_succ_self n
  rw [List.getElem?_eq_getElem hlen, Option.map_some']
  have h := invokeAll_get (postFailureEnv collection now).collection m msg hdec
    (List.replicate (n + 1) (Env.working collection now2)) _ 1 hafter
    (by
      intro env he
      rw [(List.mem_replicate.mp he).2]
      exact ⟨rfl, rfl, rfl⟩)
    n _ (List.getElem?_eq_getElem hlen)
  rw [h.2 hv]

/-- C7 fails in three ways after the failed delivery of the test message. A later invocation
whose commit fails returns an error. A later invocation whose read fails delivers the
notification. And with a store that works, the last of 2^64 later invocations delivers the
notification, because the 64 bit counter has wrapped around. -/
theorem BillingNotifier_redelivers :
    ((invokeAll [commitFailureEnv]
        (BillingNotifier (postFailureEnv "" 5) Store.empty testNotification).store
        testNotification)[0]?).map Outcome.err =
      some (some (GoError.wrap "Failed to check token"
        (GoError.other "rpc error: code = Aborted"))) ∧
    ((invokeAll [readFailureEnv]
        (BillingNotifier (postFailureEnv "" 5) Store.empty testNotification).store
        testNotification)[0]?).map Outcome.posts = some [testText] ∧
    ((invokeAll (List.replicate (2 ^ 64 - 1 + 1) (Env.working "" 9))
        (BillingNotifier (postFailureEnv "" 5) Store.empty testNotification).store
        testNotification)[2 ^ 64 - 1]?).map Outcome.posts = some [GenerateMessage testDecoded] :=
  ⟨by set_option maxRecDepth 100000 in decide,
    by set_option maxRecDepth 100000 in decide,
    invokeAll_replicate "" 5 9 Store.empty testNotification testDecoded (2 ^ 64 - 1)
      (by set_option maxRecDepth 100000 in rfl) rfl (by decide)⟩

/-- The body of the transaction depends on the failures through the read only. -/
theorem claimBody_reads (fx : Faults) (s : Store) (c t : String) (h : fx.readFails = false) :
    claimBody fx s c t = claimBody Faults.none s c t := by
  simp only [claimBody, txGet, h, Faults.none]

/-- When the read fails the body of the transaction takes the counter for 0. -/
theorem claimBody_read_failure (fx : Faults) (s : Store) (c t : String)
    (h : fx.readFails = true) : claimBody fx s c t = Except.ok 1 := by
  simp [claimBody, txGet, h, wrapInt64_one]

/-- The store that `CheckDuplicate` leaves: the store it found, or that store with the new
counter written. -/
theorem CheckDuplicate_store (fx : Faults) (now : Int) (s : Store) (c t : String) :
    (CheckDuplicate fx now s c t).store = s ∨
      ∃ v, claimBody fx s c t = Except.ok v ∧
        (CheckDuplicate fx now s c t).store =
          s.setMerge c t [("used", Value.int v), ("updated_at", Value.int now)] := by
  cases hb : claimBody fx s c t with
  | error e =>
    left
    unfold CheckDuplicate
    rw [hb]
  | ok v =>
    cases hc : fx.commitFails with
    | true =>
      left
      unfold CheckDuplicate
      rw [hb]
      simp only [hc, if_true]
    | false => exact Or.inr ⟨v, rfl, (CheckDuplicate_of_body fx now s c t v hc hb).2⟩

/-- The store that `BillingNotifier` leaves is the one that `CheckDuplicate` leaves. -/
theorem BillingNotifier_store (env : Env) (s : Store) (m : PubSubMessage)
    (msg : BillingMessage) (hclient : env.clientFails = false)
    (hdec : Unmarshal m.Data = Except.ok msg) :
    (BillingNotifier env s m).store =
      (CheckDuplicate env.faults env.now s env.collection (GenerateToken m msg)).store := by
  unfold BillingNotifier
  simp only [hclient, hdec, Bool.false_eq_true, if_false]
  split
  · split <;> rfl
  · split <;> rfl

/-- One invocation, whatever fails in it, leaves a counter between 1 and the next value. -/
theorem BillingNotifier_counter_step (collection : String) (m : PubSubMessage)
    (msg : BillingMessage) (hdec : Unmarshal m.Data = Except.ok msg) (env : Env) (s : Store)
    (k : Nat) (hk : 1 ≤ k)
    (hinv : claimBody Faults.none s collection (GenerateToken m msg) =
      Except.ok (wrapInt64 ((k : Int) + 1))) :
    ∃ k2 : Nat, 1 ≤ k2 ∧ k2 ≤ k + 1 ∧
      claimBody Faults.none (BillingNotifier env s m).store collection (GenerateToken m msg) =
        Except.ok (wrapInt64 ((k2 : Int) + 1)) := by
  cases hc : env.clientFails with
  | true =>
    refine ⟨k, hk, Nat.le_succ k, ?_⟩
    have hs : (BillingNotifier env s m).store = s := by
      unfold BillingNotifier
      simp only [hc, if_true]
    rw [hs]
    exact hinv
  | false =>
    rw [BillingNotifier_store env s m msg hc hdec]
    rcases CheckDuplicate_store env.faults env.now s env.collection (GenerateToken m msg) with
      h | ⟨v, hv, hst⟩
    · rw [h]
      exact ⟨k, hk, Nat.le_succ k, hinv⟩
    · rw [hst]
      by_cases hcol : env.collection = collection
      · rw [hcol] at hv ⊢
        rw [claimBody_int _ _ _ _ _ (setMerge_same _ _ _ _) (field?_merge_used _ _ _)]
        cases hr : env.faults.readFails with
        | false =>
          rw [claimBody_reads _ _ _ _ hr, hinv] at hv
          have hv2 : v = wrapInt64 ((k : Int) + 1) := (Except.ok.inj hv).symm
          refine ⟨k + 1, by omega, Nat.le_refl _, ?_⟩
          rw [hv2, wrapInt64_succ]
          push_cast
          rfl
        | true =>
          rw [claimBody_read_failure _ _ _ _ hr] at hv
          have hv2 : v = 1 := (Except.ok.inj hv).symm
          refine ⟨1, Nat.le_refl 1, by omega, ?_⟩
          rw [hv2]
          rfl
      · refine ⟨k, hk, Nat.le_succ k, ?_⟩
        rw [claimBody_congr _ _ s _ _ (setMerge_other _ _ _ _ _ _ (fun h => hcol h.1.symm))]
        exact hinv

/-- In a sequence of invocations with one message, every invocation whose own store works
finds the token claimed, whatever failed in the invocations before it, as long as the counter
cannot have wrapped around. -/
theorem invokeAll_working (collection : String) (m : PubSubMessage) (msg : BillingMessage)
    (hdec : Unmarshal m.Data = Except.ok msg) :
    ∀ (envs : List Env) (s : Store) (k : Nat), 1 ≤ k → k + envs.length ≤ 2 ^ 64 →
      claimBody Faults.none s collection (GenerateToken m msg) =
        Except.ok (wrapInt64 ((k : Int) + 1)) →
      ∀ (i : Nat) (env : Env) (o : Outcome), envs[i]? = some env →
        (invokeAll envs s m)[i]? = some o →
        env.clientFails = false → env.faults = Faults.none → env.collection = collection →
        o.err = none ∧ o.posts = []
  | [], _, _, _, _, _, i, env, o, he, _, _, _, _ => by simp at he
  | e0 :: rest, s, k, hk, hlen, hinv, 0, env, o, he, ho, hc, hf, hcol => by
    simp only [List.getElem?_cons_zero, Option.some.injEq] at he
    subst he
    simp only [invokeAll, List.getElem?_cons_zero, Option.some.injEq] at ho
    subst ho
    have hb := BillingNotifier_of_body e0 s m msg _ hc (by rw [hf]; rfl) hdec
      (by rw [hf, hcol]; exact hinv)
    simp only [List.length_cons] at hlen
    have hv := verdict_ne_none k (by omega) (by omega)
    exact hb.2.1 (fun h1 => hv ((verdict_eq_none k).mpr h1))
  | e0 :: rest, s, k, hk, hlen, hinv, i + 1, env, o, he, ho, hc, hf, hcol => by
    simp only [List.getElem?_cons_succ] at he
    simp only [invokeAll, List.getElem?_cons_succ] at ho
    simp only [List.length_cons] at hlen
    obtain ⟨k2, hk2, hk2le, hinv2⟩ :=
      BillingNotifier_counter_step collection m msg hdec e0 s k hk hinv
    exact invokeAll_working collection m msg hdec rest _ k2 hk2 (by omega) hinv2 i env o he ho
      hc hf hcol

/-- C7 (amended). When the payload decodes, its token has no record and the delivery fails,
`BillingNotifier` makes one delivery attempt and returns the error of the webhook, while the
counter 1 stays committed. Among the next invocations with the same message, up to 2^64 - 1
of them, every one whose own store works (the client is created, the read and the commit do
not fail, the collection is the same) returns no error and makes no delivery attempt, whatever
failed in the invocations before it. -/
theorem BillingNotifier_claim_before_deliver (collection : String) (now : Int) (s : Store)
    (m : PubSubMessage) (msg : BillingMessage)
    (hdec : Unmarshal m.Data = Except.ok msg)
    (hfresh : s (postFailureEnv collection now).collection (GenerateToken m msg) = none) :
    (BillingNotifier (postFailureEnv collection now) s m).err =
        some (GoError.wrap "Failed to post slack"
          (GoError.other "slack: webhook request failed")) ∧
      (BillingNotifier (postFailureEnv collection now) s m).posts = [GenerateMessage msg] ∧
      (∃ doc, (BillingNotifier (postFailureEnv collection now) s m).store
          (postFailureEnv collection now).collection (GenerateToken m msg) = some doc ∧
        doc.field? "used" = some (Value.int 1)) ∧
      ∀ envs : List Env, envs.length < 2 ^ 64 →
        ∀ (i : Nat) (env : Env) (o : Outcome), envs[i]? = some env →
          (invokeAll envs (BillingNotifier (postFailureEnv collection now) s m).store m)[i]? =
            some o →
          env.clientFails = false → env.faults = Faults.none →
          env.collection = (postFailureEnv collection now).collection →
          o.err = none ∧ o.posts = [] := by
  have hbody := claimBody_absent s _ _ hfresh
  have h1 := BillingNotifier_of_body (postFailureEnv collection now) s m msg 1 rfl rfl hdec hbody
  have hafter := claimBody_after (postFailureEnv collection now) s m msg 1 rfl rfl hdec hbody
  refine ⟨(h1.2.2 rfl).2.2 rfl, (h1.2.2 rfl).1, ?_, ?_⟩
  · rw [h1.1]
    exact ⟨_, setMerge_same _ _ _ _, field?_merge_used _ _ _⟩
  · intro envs hlen i env o he ho hc hf hcol
    exact invokeAll_working (postFailureEnv collection now).collection m msg hdec envs _ 1
      (Nat.le_refl 1) (by omega) hafter i env o he ho hc hf hcol

/-- C7 (amended), at the message of `TestBillingNotifier` on the empty store: after the failed
delivery, an invocation whose commit fails and one whose read fails, the next invocation, whose
store works, returns no error and delivers nothing. -/
theorem BillingNotifier_claim_before_deliver_witness :
    (BillingNotifier (postFailureEnv "" 5) Store.empty testNotification).err =
        some (GoError.wrap "Failed to post slack"
          (GoError.other "slack: webhook request failed")) ∧
      (BillingNotifier (postFailureEnv "" 5) Store.empty testNotification).posts =
        [GenerateMessage testDecoded] ∧
      (BillingNotifier (Env.working "" 9)
        (BillingNotifier readFailureEnv
          (BillingNotifier commitFailureEnv
            (BillingNotifier (postFailureEnv "" 5) Store.empty testNotification).store
            testNotification).store
          testNotification).store
        testNotification).err = none ∧
      (BillingNotifier (Env.working "" 9)
        (BillingNotifier readFailureEnv
          (BillingNotifier commitFailureEnv
            (BillingNotifier (postFailureEnv "" 5) Store.empty testNotification).store
            testNotification).store
          testNotification).store
        testNotification).posts = [] :=
  ⟨(BillingNotifier_claim_before_deliver "" 5 Store.empty testNotification testDecoded
      (by set_option maxRecDepth 100000 in rfl) rfl).1,
    (BillingNotifier_claim_before_deliver "" 5 Store.empty testNotification testDecoded
      (by set_option maxRecDepth 100000 in rfl) rfl).2.1,
    (BillingNotifier_claim_before_deliver "" 5 Store.empty testNotification testDecoded
      (by set_option maxRecDepth 100000 in rfl) rfl).2.2.2
      [commitFailureEnv, readFailureEnv, Env.working "" 9] (by decide) 2 (Env.working "" 9) _
      rfl rfl rfl rfl rfl⟩

/-! ## Decoding -/

theorem decodeMember_unknown (msg : BillingMessage) (key : String) (v : Json)
    (h : foldName key ∉ fieldNames) : decodeMember msg key v = Except.ok msg := by
  simp only [fieldNames, List.mem_cons, List.mem_singleton, List.not_mem_nil, or_false,
    not_or] at h
  obtain ⟨h1, h2, h3, h4, h5, h6, h7⟩ := h
  simp only [decodeMember, h1, h2, h3, h4, h5, h6, h7, if_false]

theorem decodeMembers_skip (pre rest : List (String × Json)) (key : String) (v : Json)
    (msg : BillingMessage) (h : foldName key ∉ fieldNames) :
    decodeMembers (pre ++ (key, v) :: rest) msg = decodeMembers (pre ++ rest) msg := by
  induction pre generalizing msg with
  | nil => simp [decodeMembers, decodeMember_unknown msg key v h]
  | cons kv pre ih =>
    obtain ⟨k, w⟩ := kv
    simp only [List.cons_append, decodeMembers]
    cases decodeMember msg k w with
    | error e => rfl
    | ok msg1 => exact ih msg1

theorem decodeMembers_error (members : List (String × Json)) (key : String) (v : Json)
    (hmem : (key, v) ∈ members)
    (hbad : ∀ msg, ∃ e, decodeMember msg key v = Except.error e) (msg : BillingMessage) :
    ∃ e, decodeMembers members msg = Except.error e := by
  induction members generalizing msg with
  | nil => simp at hmem
  | cons kv rest ih =>
    obtain ⟨k, w⟩ := kv
    simp only [decodeMembers]
    cases hd : decodeMember msg k w with
    | error e => exact ⟨e, rfl⟩
    | ok msg1 =>
      rcases List.mem_cons.mp hmem with h | h
      · obtain ⟨e, he⟩ := hbad msg
        rw [Prod.mk.injEq] at h
        rw [h.1, h.2, hd] at he
        exact absurd he (by simp)
      · exact ih h msg1

theorem map_ok_inv {α β : Type} {x : Except GoError α} {f : α → β} {y : β}
    (h : x.map f = Except.ok y) : ∃ a, x = Except.ok a ∧ y = f a := by
  cases x with
  | error e => simp [Except.map] at h
  | ok a => exact ⟨a, rfl, by simpa [Except.map] using h.symm⟩

/-- A member whose key does not name a field leaves that field as it is. -/
theorem decodeMember_keeps (msg msg1 : BillingMessage) (key : String) (v : Json)
    (h : decodeMember msg key v = Except.ok msg1) :
    (foldName key ≠ "alertthresholdexceeded" →
        msg1.AlertThresholdExceeded = msg.AlertThresholdExceeded) ∧
      (foldName key ≠ "costamount" → msg1.CostAmount = msg.CostAmount) ∧
      (foldName key ≠ "costintervalstart" → msg1.CostIntervalStart = msg.CostIntervalStart) ∧
      (foldName key ≠ "budgetamount" → msg1.BudgetAmount = msg.BudgetAmount) := by
  unfold decodeMember at h
  simp only at h
  split_ifs at h with h1 h2 h3 h4 h5 h6 h7
  · obtain ⟨a, -, rfl⟩ := map_ok_inv h
    exact ⟨fun _ => rfl, fun _ => rfl, fun _ => rfl, fun _ => rfl⟩
  · obtain ⟨a, -, rfl⟩ := map_ok_inv h
    exact ⟨fun hn => absurd h2 hn, fun _ => rfl, fun _ => rfl, fun _ => rfl⟩
  · obtain ⟨a, -, rfl⟩ := map_ok_inv h
    exact ⟨fun _ => rfl, fun hn => absurd h3 hn, fun _ => rfl, fun _ => rfl⟩
  · obtain ⟨a, -, rfl⟩ := map_ok_inv h
    exact ⟨fun _ => rfl, fun _ => rfl, fun hn => absurd h4 hn, fun _ => rfl⟩
  · obtain ⟨a, -, rfl⟩ := map_ok_inv h
    exact ⟨fun _ => rfl, fun _ => rfl, fun _ => rfl, fun hn => absurd h5 hn⟩
  · obtain ⟨a, -, rfl⟩ := map_ok_inv h
    exact ⟨fun _ => rfl, fun _ => rfl, fun _ => rfl, fun _ => rfl⟩
  · obtain ⟨a, -, rfl⟩ := map_ok_inv h
    exact ⟨fun _ => rfl, fun _ => rfl, fun _ => rfl, fun _ => rfl⟩
  · cases h
    exact ⟨fun _ => rfl, fun _ => rfl, fun _ => rfl, fun _ => rfl⟩

/-- A field that no member of the object names keeps the value it had. -/
theorem decodeMembers_keeps (members : List (String × Json)) (msg msg1 : BillingMessage)
    (h : decodeMembers members msg = Except.ok msg1) :
    ((∀ kv ∈ members, foldName kv.1 ≠ "alertthresholdexceeded") →
        msg1.AlertThresholdExceeded = msg.AlertThresholdExceeded) ∧
      ((∀ kv ∈ members, foldName kv.1 ≠ "costamount") → msg1.CostAmount = msg.CostAmount) ∧
      ((∀ kv ∈ members, foldName kv.1 ≠ "costintervalstart") →
        msg1.CostIntervalStart = msg.CostIntervalStart) ∧
      ((∀ kv ∈ members, foldName kv.1 ≠ "budgetamount") →
        msg1.BudgetAmount = msg.BudgetAmount) := by
  induction members generalizing msg with
  | nil =>
    simp only [decodeMembers, Except.ok.injEq] at h
    subst h
    exact ⟨fun _ => rfl, fun _ => rfl, fun _ => rfl, fun _ => rfl⟩
  | cons kv rest ih =>
    obtain ⟨k, w⟩ := kv
    simp only [decodeMembers] at h
    cases hd : decodeMember msg k w with
    | error e => rw [hd] at h; exact absurd h (by simp)
    | ok msg2 =>
      rw [hd] at h
      obtain ⟨i1, i2, i3, i4⟩ := ih msg2 h
      obtain ⟨j1, j2, j3, j4⟩ := decodeMember_keeps msg msg2 k w hd
      refine ⟨fun hn => ?_, fun hn => ?_, fun hn => ?_, fun hn => ?_⟩
      · rw [i1 (fun kv hkv => hn kv (List.mem_cons_of_mem _ hkv)),
          j1 (hn (k, w) (List.mem_cons_self _ _))]
      · rw [i2 (fun kv hkv => hn kv (List.mem_cons_of_mem _ hkv)),
          j2 (hn (k, w) (List.mem_cons_self _ _))]
      · rw [i3 (fun kv hkv => hn kv (List.mem_cons_of_mem _ hkv)),
          j3 (hn (k, w) (List.mem_cons_self _ _))]
      · rw [i4 (fun kv hkv => hn kv (List.mem_cons_of_mem _ hkv)),
          j4 (hn (k, w) (List.mem_cons_self _ _))]

/-- C4 fails for a payload without `costIntervalStart`: the payload decodes, the interval start
is the zero time, the store is read and written, and a notification dated January of the year
1 is delivered. -/
theorem BillingNotifier_missing_start :
    Unmarshal notificationWithoutStart.Data =
        Except.ok { testDecoded with CostIntervalStart := Time.zero } ∧
      (BillingNotifier (Env.working "" 5) Store.empty notificationWithoutStart).err = none ∧
      (BillingNotifier (Env.working "" 5) Store.empty notificationWithoutStart).ops =
        [StoreOp.get "billing_notifier" "budget_id:-62135596800:0.200000",
          StoreOp.set "billing_notifier" "budget_id:-62135596800:0.200000"
            [("used", Value.int 1), ("updated_at", Value.int 5)]] ∧
      (BillingNotifier (Env.working "" 5) Store.empty notificationWithoutStart).posts =
        ["[example] 0001年01月 予算(1000円)の20%に達しました。現在の利用額: 100円"] :=
  ⟨by set_option maxRecDepth 100000 in rfl,
    by set_option maxRecDepth 100000 in decide,
    by set_option maxRecDepth 100000 in decide,
    by set_option maxRecDepth 100000 in decide⟩

/-- C4 (amended). When `json.Unmarshal` rejects the payload, `BillingNotifier` returns the
decode error and makes no access to the store and no delivery attempt. The payloads rejected
are the bytes that are not JSON text and the objects with a member whose value does not fit
its field, such as a `costIntervalStart` whose text `time.Parse` does not accept for the layout
`RFC3339`, or a numeric field that holds a string. A payload without a numeric or timestamp
member is not rejected: the field keeps its zero value. A member whose key names no field is
skipped. The texts that `time.Parse` accepts include an hour of one digit, a comma before the
fraction of a second and a zone of 24 hours: such a payload is decoded and delivered. -/
theorem BillingNotifier_decode_error :
    (∀ (env : Env) (s : Store) (m : PubSubMessage) (e : GoError),
      env.clientFails = false → Unmarshal m.Data = Except.error e →
      (BillingNotifier env s m).err = some (GoError.wrap "Failed to unmarshal json" e) ∧
        (BillingNotifier env s m).store = s ∧ (BillingNotifier env s m).ops = [] ∧
        (BillingNotifier env s m).posts = []) ∧
    (∃ e, Unmarshal Payload.invalid = Except.error e) ∧
    (∀ (members : List (String × Json)) (key : String) (v : Json),
      (key, v) ∈ members → (∀ msg, ∃ e, decodeMember msg key v = Except.error e) →
      ∃ e, Unmarshal (Payload.valid (Json.obj members)) = Except.error e) ∧
    (∀ (msg : BillingMessage) (key raw text : String),
      foldName key = "costintervalstart" → Time.parseRFC3339 raw = none →
      ∃ e, decodeMember msg key (Json.str raw text) = Except.error e) ∧
    (∀ (msg : BillingMessage) (key raw text : String),
      foldName key = "alertthresholdexceeded" ∨ foldName key = "costamount" ∨
        foldName key = "budgetamount" →
      ∃ e, decodeMember msg key (Json.str raw text) = Except.error e) ∧
    (∀ (members : List (String × Json)) (msg : BillingMessage),
      Unmarshal (Payload.valid (Json.obj members)) = Except.ok msg →
      ((∀ kv ∈ members, foldName kv.1 ≠ "alertthresholdexceeded") →
          msg.AlertThresholdExceeded = Float64.finite false 0 (-1074)) ∧
        ((∀ kv ∈ members, foldName kv.1 ≠ "costamount") →
          msg.CostAmount = Float64.finite false 0 (-1074)) ∧
        ((∀ kv ∈ members, foldName kv.1 ≠ "costintervalstart") →
          msg.CostIntervalStart = Time.zero) ∧
        ((∀ kv ∈ members, foldName kv.1 ≠ "budgetamount") →
          msg.BudgetAmount = Float64.finite false 0 (-1074))) ∧
    (∀ (pre rest : List (String × Json)) (key : String) (v : Json),
      foldName key ∉ fieldNames →
      Unmarshal (Payload.valid (Json.obj (pre ++ (key, v) :: rest))) =
        Unmarshal (Payload.valid (Json.obj (pre ++ rest)))) ∧
    (Time.parseRFC3339 "2019-09-01T7:00:00Z" =
        some { sec := 1567321200, nsec := 0, offset := 0 } ∧
      Time.parseRFC3339 "2019-09-01T07:00:00,5Z" =
        some { sec := 1567321200, nsec := 500000000, offset := 0 } ∧
      Time.parseRFC3339 "2019-09-01T07:00:00+24:00" =
        some { sec := 1567234800, nsec := 0, offset := 86400 } ∧
      (BillingNotifier (Env.working "" 5) Store.empty notificationShortHour).err = none ∧
      (BillingNotifier (Env.working "" 5) Store.empty notificationShortHour).posts =
        ["[example] 2019年09月 予算(1000円)の20%に達しました。現在の利用額: 100円"]) := by
  refine ⟨?_, ⟨_, rfl⟩, ?_, ?_, ?_, ?_, ?_, ?_⟩
  · intro env s m e hclient herr
    unfold BillingNotifier
    simp only [hclient, herr]
    exact ⟨rfl, rfl, rfl, rfl⟩
  · intro members key v hmem hbad
    exact decodeMembers_error members key v hmem hbad _
  · intro msg key raw text hk hparse
    refine ⟨GoError.other "parsing time: cannot parse", ?_⟩
    simp [decodeMember, hk, decodeTime, hparse, Except.map]
  · intro msg key raw text hk
    refine ⟨unmarshalTypeError, ?_⟩
    rcases hk with hk | hk | hk <;> simp [decodeMember, hk, decodeFloat, Except.map]
  · intro members msg hdec
    exact decodeMembers_keeps members BillingMessage.zero msg hdec
  · intro pre rest key v hk
    exact decodeMembers_skip pre rest key v _ hk
  · set_option maxRecDepth 100000 in decide

/-- C4 (amended), at a payload whose `costIntervalStart` is the text `September 2019`. -/
theorem BillingNotifier_decode_error_witness :
    (BillingNotifier (Env.working "" 5) Store.empty notificationBadStart).err =
        some (GoError.wrap "Failed to unmarshal json"
          (GoError.other "parsing time: cannot parse")) ∧
      (BillingNotifier (Env.working "" 5) Store.empty notificationBadStart).store =
        Store.empty ∧
      (BillingNotifier (Env.working "" 5) Store.empty notificationBadStart).ops = [] ∧
      (BillingNotifier (Env.working "" 5) Store.empty notificationBadStart).posts = [] :=
  BillingNotifier_decode_error.1 (Env.working "" 5) Store.empty notificationBadStart
    (GoError.other "parsing time: cannot parse") rfl (by set_option maxRecDepth 100000 in rfl)

/-! ## The token of an alert -/

theorem decodeFloat_finite (old x : Float64) (v : Json) (hold : old.isFinite = true)
    (h : decodeFloat old v = Except.ok x) : x.isFinite = true := by
  cases v with
  | num neg digits exp10 =>
    simp only [decodeFloat] at h
    split at h
    · rename_i hf
      rw [← Except.ok.inj h]
      exact hf
    · exact absurd h (by simp)
  | null =>
    simp only [decodeFloat] at h
    rw [← Except.ok.inj h]
    exact hold
  | bool b => simp [decodeFloat] at h
  | str raw text => simp [decodeFloat] at h
  | arr elems => simp [decodeFloat] at h
  | obj members => simp [decodeFloat] at h

theorem decodeMember_finite (msg msg1 : BillingMessage) (key : String) (v : Json)
    (hfin : msg.AlertThresholdExceeded.isFinite = true)
    (h : decodeMember msg key v = Except.ok msg1) :
    msg1.AlertThresholdExceeded.isFinite = true := by
  by_cases hk : foldName key = "alertthresholdexceeded"
  · unfold decodeMember at h
    simp only [hk] at h
    rw [if_pos trivial] at h
    obtain ⟨x, hx, rfl⟩ := map_ok_inv h
    exact decodeFloat_finite _ _ _ hfin hx
  · rw [(decodeMember_keeps msg msg1 key v h).1 hk]
    exact hfin

theorem decodeMembers_finite (members : List (String × Json)) (msg msg1 : BillingMessage)
    (hfin : msg.AlertThresholdExceeded.isFinite = true)
    (h : decodeMembers members msg = Except.ok msg1) :
    msg1.AlertThresholdExceeded.isFinite = true := by
  induction members generalizing msg with
  | nil =>
    simp only [decodeMembers, Except.ok.injEq] at h
    rw [← h]
    exact hfin
  | cons kv rest ih =>
    obtain ⟨k, w⟩ := kv
    simp only [decodeMembers] at h
    cases hd : decodeMember msg k w with
    | error e => rw [hd] at h; exact absurd h (by simp)
    | ok msg2 =>
      rw [hd] at h
      exact ih msg2 (decodeMember_finite msg msg2 k w hfin hd) h

/-- The threshold of a decoded alert is a finite number. -/
theorem Unmarshal_finite (payload : Payload) (msg : BillingMessage)
    (h : Unmarshal payload = Except.ok msg) : msg.AlertThresholdExceeded.isFinite = true := by
  cases payload with
  | invalid => simp [Unmarshal] at h
  | valid j =>
    cases j with
    | null =>
      simp only [Unmarshal, Except.ok.injEq] at h
      rw [← h]
      rfl
    | obj members => exact decodeMembers_finite members BillingMessage.zero msg rfl h
    | bool b => simp [Unmarshal] at h
    | num neg digits exp10 => simp [Unmarshal] at h
    | str raw text => simp [Unmarshal] at h
    | arr elems => simp [Unmarshal] at h

/-- C9. For every budget id, interval start and threshold fraction, that is a finite `float64`
threshold, the only kind that `json.Unmarshal` hands to `BillingNotifier`, the token is the
budget id, a colon, the epoch seconds of the interval start in decimal, a colon and the
threshold in fixed-point notation: its sign, the integer part, a point and exactly six digits,
the whole being the threshold rounded to a nearest multiple of one millionth. The token depends
on no other field of the two messages, and the token of the test suite is
`budget_id:1567576776:0.100000` in every location. -/
theorem GenerateToken_format :
    (∀ (m : PubSubMessage) (b : BillingMessage),
      b.AlertThresholdExceeded.isFinite = true →
      ∃ n : Nat,
        GenerateToken m b =
            m.Attributes.BudgetId ++ ":" ++ fmtInt b.CostIntervalStart.Unix ++ ":" ++
              (signStr b.AlertThresholdExceeded.signBit ++ fmtNat (n / 10 ^ 6) ++ "." ++
                padDigits 6 (n % 10 ^ 6)) ∧
          (padDigits 6 (n % 10 ^ 6)).length = 6 ∧
          |b.AlertThresholdExceeded.absVal * (10 : ℚ) ^ 6 - n| ≤ 1 / 2) ∧
    (∀ (payload : Payload) (msg : BillingMessage),
      Unmarshal payload = Except.ok msg → msg.AlertThresholdExceeded.isFinite = true) ∧
    (∀ (m1 m2 : PubSubMessage) (b1 b2 : BillingMessage),
      m1.Attributes.BudgetId = m2.Attributes.BudgetId →
      b1.CostIntervalStart.Unix = b2.CostIntervalStart.Unix →
      b1.AlertThresholdExceeded = b2.AlertThresholdExceeded →
      GenerateToken m1 b1 = GenerateToken m2 b2) ∧
    (∀ offset : Int,
      GenerateToken testPubSubMessage (testBillingMessage offset) =
        "budget_id:1567576776:0.100000") := by
  refine ⟨?_, Unmarshal_finite, ?_, ?_⟩
  · intro m b hfin
    cases hthr : b.AlertThresholdExceeded with
    | finite neg mant e =>
      refine ⟨Float64.scaledRound mant e 6, ?_, (fmtFloat_six_finite neg mant e).2, ?_⟩
      · simp only [GenerateToken, hthr, (fmtFloat_six_finite neg mant e).1, Float64.signBit]
      · simpa [Float64.absVal] using scaledRound_near mant e 6
    | inf neg => rw [hthr] at hfin; simp [Float64.isFinite] at hfin
    | nan => rw [hthr] at hfin; simp [Float64.isFinite] at hfin
  · intro m1 m2 b1 b2 h1 h2 h3
    simp only [GenerateToken, h1, h2, h3]
  · intro offset
    have h : GenerateToken testPubSubMessage (testBillingMessage offset) =
        GenerateToken testPubSubMessage (testBillingMessage 0) := rfl
    rw [h]
    decide

/-- C9, at the alert of the test suite, at the alert decoded from the payload of
`TestBillingNotifier`, and at a second alert that differs from the first in the billing
account, the display name and the cost only. -/
theorem GenerateToken_format_witness :
    (∃ n : Nat,
      GenerateToken testPubSubMessage (testBillingMessage 0) =
          testPubSubMessage.Attributes.BudgetId ++ ":" ++
            fmtInt (testBillingMessage 0).CostIntervalStart.Unix ++ ":" ++
            (signStr (testBillingMessage 0).AlertThresholdExceeded.signBit ++
              fmtNat (n / 10 ^ 6) ++ "." ++ padDigits 6 (n % 10 ^ 6)) ∧
        (padDigits 6 (n % 10 ^ 6)).length = 6 ∧
        |(testBillingMessage 0).AlertThresholdExceeded.absVal * (10 : ℚ) ^ 6 - n| ≤ 1 / 2) ∧
      testDecoded.AlertThresholdExceeded.isFinite = true ∧
      GenerateToken (colonMessage "x") (testBillingMessage 0) =
        GenerateToken (colonMessage "y")
          { testBillingMessage 0 with BudgetDisplayName := "other",
                                      CostAmount := Float64.ofNat 7 } :=
  ⟨GenerateToken_format.1 testPubSubMessage (testBillingMessage 0) (by decide),
    GenerateToken_format.2.1 testPayload testDecoded (by set_option maxRecDepth 100000 in rfl),
    GenerateToken_format.2.2.1 (colonMessage "x") (colonMessage "y") (testBillingMessage 0)
      { testBillingMessage 0 with BudgetDisplayName := "other", CostAmount := Float64.ofNat 7 }
      rfl rfl rfl⟩

end Notifier
